import Mathlib

/-!
# SNTP client (`NtpClient.cpp`, `NtpClient.h`): embedding and verified properties

The C++ class `NtpClient` is embedded as pure functions over an explicit object state.

Conventions of the embedding (the project is a Visual Studio 2019 / Windows program):
* `char` is a signed 8-bit type, `int` and `long` are 32 bits, the machine is little-endian;
* a `char` object is stored as its bit pattern `Byte = Fin 256`; `charToInt` is its value
  when it is promoted to `int`;
* unsigned arithmetic wraps (`% 2^32`, `% 2^64`), a conversion to a signed type keeps the
  low bits in two's complement (`toInt32`), a right shift of a negative `int` is arithmetic;
* the calls to the operating system (`GetSystemTime`, Winsock) are inputs of the functions
  that make them;
* the `double` expressions of the two timestamp conversions are evaluated in exact
  arithmetic and the cast truncates. For `convert_ntp_to_unix` this is what the machine
  computes (the product `fraction * 1.0e6` is below `2^52` and the division is by a power
  of two); for `convert_unix_to_ntp` it leaves out the rounding of the one product by
  `1.0e-6`.
-/

namespace Sntp

/-! ## Machine integers and buffers -/

/-- Bit pattern of one `char` object. -/
abbrev Byte := Fin 256

/-- Value of a `char` promoted to `int` (`char` is signed). -/
def charToInt (c : Byte) : Int :=
  if c.val < 128 then (c.val : Int) else (c.val : Int) - 256

/-- Conversion of an `int` to `char`: the low eight bits. -/
def intToChar (x : Int) : Byte := Fin.ofNat (x % 256).toNat

/-- Conversion of an `int` to `unsigned char`. -/
def toUChar (x : Int) : Nat := (x % 256).toNat

/-- Conversion of an integer to a 32-bit unsigned type. -/
def toUInt32 (x : Int) : Nat := (x % 4294967296).toNat

/-- Conversion of an integer to a 32-bit signed type (`int`, `long`). -/
def toInt32 (x : Int) : Int :=
  let r := x % 4294967296
  if r < 2147483648 then r else r - 4294967296

/-- Reduction to `uint64_t`. -/
def toUInt64 (x : Int) : Nat := (x % 18446744073709551616).toNat

/-- The expression `x & m` for an `int` `x` and a constant `m` that is not negative: the
bits of the two's complement pattern of `x` that `m` selects. -/
def andMask (x : Int) (m : Nat) : Int := ((toUInt32 x &&& m : Nat) : Int)

def NTP_MSG_SIZE : Nat := 48
def NTP_MSG_OFFSET_ROOT_DELAY : Nat := 4
def NTP_MSG_OFFSET_ROOT_DISPERSION : Nat := 8
def NTP_MSG_OFFSET_REFERENCE_IDENTIFIER : Nat := 12
def NTP_MSG_OFFSET_REFERENCE_TIMESTAMP : Nat := 16
def NTP_MSG_OFFSET_ORIGINATE_TIMESTAMP : Nat := 24
def NTP_MSG_OFFSET_RECEIVE_TIMESTAMP : Nat := 32
def NTP_MSG_OFFSET_TRANSMIT_TIMESTAMP : Nat := 40

/-- Seconds from 1/1/1900 00.00 to 1/1/1970 00.00. -/
def SECONDS_SINCE_FIRST_EPOCH : Nat := 2208988800

/-- A message buffer `char[NTP_MSG_SIZE]`. -/
abbrev Buffer := Fin 48 → Byte

/-- The buffer `{0}`. -/
def Buffer.zero : Buffer := fun _ => 0

/-- Read `buffer[i]` (the program only reads inside the buffer). -/
def Buffer.rd (b : Buffer) (i : Nat) : Byte :=
  if h : i < 48 then b ⟨i, h⟩ else 0

/-- Assignment `buffer[i] = v`. -/
def Buffer.wr (b : Buffer) (i : Nat) (v : Byte) : Buffer :=
  fun j => if j.val = i then v else b j

/-- A buffer holding the given bytes at its start and zero after them. -/
def Buffer.ofList (l : List Byte) : Buffer := fun j => l.getD j.val 0

/-- Value that `memcpy` of the chars into an unsigned integer object yields (little-endian). -/
def leBytesToNat : List Byte → Nat
  | [] => 0
  | b :: bs => b.val + 256 * leBytesToNat bs

/-- The `k` chars that `memcpy` from an unsigned integer object yields (little-endian). -/
def natToLeBytes : Nat → Nat → List Byte
  | 0, _ => []
  | k + 1, n => Fin.ofNat (n % 256) :: natToLeBytes k (n / 256)

/-! ## Data structures of `NtpClient.h` -/

/-- Winsock `struct timeval`: two `long`s. -/
structure timeval where
  tv_sec : Int
  tv_usec : Int
deriving DecidableEq, Repr

structure ntp_timestamp where
  second : Nat
  fraction : Nat
deriving DecidableEq, Repr

structure date_structure where
  hour : Int
  minute : Int
  second : Int
  millisecond : Int
deriving DecidableEq, Repr

structure SNTPMessage where
  _leapIndicator : Nat
  _versionNumber : Nat
  _mode : Nat
  _stratum : Nat
  _pollInterval : Nat
  _precision : Nat
  _rootDelay : Nat
  _rootDispersion : Nat
  _referenceIdentifier : List Nat
  _referenceTimestamp : Nat
  _originateTimestamp : Nat
  _receiveTimestamp : Nat
  _transmitTimestamp : Nat
deriving DecidableEq, Repr

/-- Result of `SNTPMessage::clear`. -/
def SNTPMessage.clear : SNTPMessage :=
  { _leapIndicator := 0, _versionNumber := 0, _mode := 0, _stratum := 0, _pollInterval := 0,
    _precision := 0, _rootDelay := 0, _rootDispersion := 0, _referenceIdentifier := [0, 0, 0, 0],
    _referenceTimestamp := 0, _originateTimestamp := 0, _receiveTimestamp := 0,
    _transmitTimestamp := 0 }

/-- Data members of the class `NtpClient`. -/
structure NtpClient where
  m_clockOffset : Int
  m_originateTimestamp : Nat
deriving DecidableEq, Repr

/-- The constructor `NtpClient::NtpClient`. -/
def NtpClient.new : NtpClient := { m_clockOffset := 0, m_originateTimestamp := 0 }

def SetClockOffset (self : NtpClient) (clockOffset : Int) : NtpClient :=
  { self with m_clockOffset := clockOffset }

def GetClockOffset (self : NtpClient) : Int := self.m_clockOffset

/-! ## Timestamp conversions -/

/-- The function `NtpClient::convert_unix_to_ntp`, the `double` product in exact arithmetic.
Where the value to convert does not fit `uint32_t` (see `fractionOperand`) the language
leaves the conversion undefined; it is reduced modulo 2^32 here. -/
def convert_unix_to_ntp (unixTs : timeval) : ntp_timestamp :=
  { second := toUInt32 (unixTs.tv_sec + SECONDS_SINCE_FIRST_EPOCH)
    fraction := toUInt32 (Int.tdiv ((unixTs.tv_usec + 1) * 4294967296) 1000000) }

/-- The value that line 135 of `convert_unix_to_ntp` converts to `uint32_t`:
`(double)(tv_usec + 1) * (double)(1LL << 32) * 1.0e-6` without its fractional part. The
conversion is defined by the language when this value lies in [0, 2^32). -/
def fractionOperand (unixTs : timeval) : Int :=
  Int.tdiv ((unixTs.tv_usec + 1) * 4294967296) 1000000

def convert_ntp_to_unix (ntpTs : ntp_timestamp) : timeval :=
  { tv_sec := toInt32 ((toUInt32 ((ntpTs.second : Int) - SECONDS_SINCE_FIRST_EPOCH) : Nat) : Int)
    tv_usec := toInt32 ((toUInt32 ((ntpTs.fraction * 1000000 / 4294967296 : Nat) : Int) : Nat) : Int) }

/-- Decimal digits of `n`, most significant first; `fuel` bounds their number. -/
def decDigits : Nat → Nat → List Char
  | 0, _ => []
  | fuel + 1, n =>
    if n < 10 then [Nat.digitChar n] else decDigits fuel (n / 10) ++ [Nat.digitChar (n % 10)]

/-- Insertion of an `int` into a stream with `std::internal`, `std::setfill('0')` and
`std::setw(w)`: the sign, if any, then the fill characters, then the digits. -/
def putInt (w : Nat) (v : Int) : List Char :=
  let ds := decDigits 10 v.natAbs
  let sign := if v < 0 then ['-'] else []
  sign ++ List.replicate (w - (sign.length + ds.length)) '0' ++ ds

/-- The C function `isspace` in the "C" locale: space, `\t`, `\n`, `\v`, `\f`, `\r`. -/
def isspace (c : Char) : Bool := c = ' ' || (9 ≤ c.toNat && c.toNat ≤ 13)

/-- Values of the longest run of decimal digits at the start of the text. -/
def takeDigits : List Char → List Nat
  | [] => []
  | c :: cs => if c.isDigit then (c.toNat - 48) :: takeDigits cs else []

/-- The function `std::stoull` in base 10: white space is skipped, an optional sign is read,
then the digits; `none` is a thrown exception (no digit, or a value out of range); after a
minus sign the value is negated in `unsigned long long`. -/
def stoull (s : List Char) : Option Nat :=
  let s1 := s.dropWhile isspace
  let r : Bool × List Char :=
    match s1 with
    | [] => (false, [])
    | c :: t => if c = '-' then (true, t) else if c = '+' then (false, t) else (false, c :: t)
  let ds := takeDigits r.2
  if ds = [] then none
  else
    let v := ds.foldl (fun a d => 10 * a + d) 0
    if 18446744073709551616 ≤ v then none
    else some (if r.1 then (18446744073709551616 - v) % 18446744073709551616 else v)

/-- Lines 147-153 of `convert_ntp_to_date`: the two halves of a 64-bit timestamp. -/
def splitTimestamp (_ntpTs : Nat) : ntp_timestamp :=
  let second := (_ntpTs >>> 32) &&& 0xFFFFFFFF
  let fraction := _ntpTs &&& 0xFFFFFFFF
  { second := second, fraction := fraction }

/-- Lines 156-159 of `convert_ntp_to_date`: the fields stored in `_outDataTs`. -/
def dateFields (unix : timeval) : date_structure :=
  { hour := Int.tdiv (Int.tmod unix.tv_sec 86400) 3600
    minute := Int.tdiv (Int.tmod unix.tv_sec 3600) 60
    second := Int.tmod unix.tv_sec 60
    millisecond := unix.tv_usec }

/-- Lines 161-165 of `convert_ntp_to_date`: the text written to the string stream. -/
def dateText (d : date_structure) : List Char :=
  putInt 2 d.hour ++ putInt 2 d.minute ++ putInt 2 d.second ++ putInt 6 d.millisecond

def convert_ntp_to_date (_ntpTs : Nat) : Option (Nat × date_structure) :=
  let ntpTs := splitTimestamp _ntpTs
  let unix := convert_ntp_to_unix ntpTs
  let _outDataTs := dateFields unix
  let _s := dateText _outDataTs
  (stoull _s).map (fun v => (v, _outDataTs))

/-! ## Field accessors -/

def GetNtpTimestamp64 (offset : Nat) (buffer : Buffer) : Nat :=
  let _len := 8
  let valueRx := List.replicate _len (0 : Byte)
  let r := (List.range _len).foldl
    (fun (s : List Byte × Int) k => (s.1.set s.2.toNat (buffer.rd (offset + k)), s.2 - 1))
    (valueRx, 7)
  leBytesToNat r.1

def GetNtpField32 (offset : Nat) (buffer : Buffer) : Nat :=
  let _len := 4
  let valueRx := List.replicate _len (0 : Byte)
  let r := (List.range _len).foldl
    (fun (s : List Byte × Int) k => (s.1.set s.2.toNat (buffer.rd (offset + k)), s.2 - 1))
    (valueRx, 3)
  leBytesToNat r.1

/-- The `int` array `_outArray` after the call. -/
def GetReferenceId (offset : Nat) (buffer : Buffer) : List Int :=
  let _len := 4
  let r := (List.range _len).foldl
    (fun (s : List Int × Nat) k => (s.1.set s.2 (charToInt (buffer.rd (offset + k))), s.2 + 1))
    (List.replicate _len (0 : Int), 0)
  r.1

/-! ## Request and reply -/

/-- Lines 175-179 of `CreateMessage` and 208-212 of `ReceivedMessage`: the reading `now` of
the clock as a 64-bit NTP timestamp `_ntpTs`. -/
def ntpNow (now : timeval) : Nat :=
  let ntp := convert_unix_to_ntp now
  let _ntpTs : Nat := ntp.second
  ((_ntpTs <<< 32) % 18446744073709551616) ||| ntp.fraction

/-- The function `NtpClient::CreateMessage`; `now` is what `gettimeofday` delivers. Returns the
buffer and the object after the call. The call of `convert_ntp_to_unix` at line 177 only
overwrites the local `unix`, which is not read again. -/
def CreateMessage (self : NtpClient) (now : timeval) (buffer : Buffer) : Buffer × NtpClient :=
  let _ntpTs : Nat := ntpNow now
  let self1 : NtpClient := { self with m_originateTimestamp := _ntpTs }
  let _sntpMsg : SNTPMessage :=
    { SNTPMessage.clear with
      _leapIndicator := 0, _versionNumber := 3, _mode := 3, _originateTimestamp := _ntpTs }
  let value := natToLeBytes 8 _sntpMsg._originateTimestamp
  let r := (List.range 8).foldl
    (fun (s : Buffer × Int) k =>
      (s.1.wr (NTP_MSG_OFFSET_ORIGINATE_TIMESTAMP + k) (value.getD s.2.toNat 0), s.2 - 1))
    (buffer, 7)
  let b0 : Int := ((_sntpMsg._leapIndicator <<< 6) ||| (_sntpMsg._versionNumber <<< 3)
    ||| _sntpMsg._mode : Nat)
  (r.1.wr 0 (intToChar b0), self1)

/-- Local variables of `NtpClient::ReceivedMessage` at its end, and the object after it. -/
structure Received where
  self : NtpClient
  _ntpTs : Nat
  _sntpMsg : SNTPMessage
  _tempOriginate : Nat
  _originClient : Nat
  _receiveServer : Nat
  _transmitServer : Nat
  _receiveClient : Nat
  _clockOffset : Int
  _roundTripDelay : Int
deriving DecidableEq, Repr

/-- Lines 214-233 of `ReceivedMessage`: the fields read from the reply. -/
def decodeFields (buffer : Buffer) : SNTPMessage :=
  let _refId := GetReferenceId NTP_MSG_OFFSET_REFERENCE_IDENTIFIER buffer
  { SNTPMessage.clear with
    _leapIndicator := toUChar (charToInt (buffer.rd 0) >>> 6)
    _versionNumber := toUChar (andMask (charToInt (buffer.rd 0)) 0x38 >>> 3)
    _mode := toUChar (andMask (charToInt (buffer.rd 0)) 0x7)
    _stratum := toUChar (charToInt (buffer.rd 1))
    _pollInterval := toUChar (charToInt (buffer.rd 2))
    _precision := toUChar (charToInt (buffer.rd 3))
    _rootDelay := GetNtpField32 NTP_MSG_OFFSET_ROOT_DELAY buffer
    _rootDispersion := GetNtpField32 NTP_MSG_OFFSET_ROOT_DISPERSION buffer
    _referenceIdentifier := _refId.map toUInt32
    _referenceTimestamp := GetNtpTimestamp64 NTP_MSG_OFFSET_REFERENCE_TIMESTAMP buffer
    _originateTimestamp := GetNtpTimestamp64 NTP_MSG_OFFSET_ORIGINATE_TIMESTAMP buffer
    _receiveTimestamp := GetNtpTimestamp64 NTP_MSG_OFFSET_RECEIVE_TIMESTAMP buffer
    _transmitTimestamp := GetNtpTimestamp64 NTP_MSG_OFFSET_TRANSMIT_TIMESTAMP buffer }

/-- Lines 249-250 of `ReceivedMessage`: the offset in ms from the four day-local values. -/
def clockOffsetMs (_originClient _receiveServer _transmitServer _receiveClient : Nat) : Int :=
  let _clockOffset : Int := toInt32
    ((toUInt64 ((toUInt64 ((_receiveServer : Int) - _originClient) : Int)
      + (toUInt64 ((_transmitServer : Int) - _receiveClient) : Int)) / 2 : Nat) : Int)
  Int.tdiv _clockOffset 1000

/-- Lines 252-253 of `ReceivedMessage`: the round-trip delay in ms. -/
def roundTripDelayMs (_originClient _receiveServer _transmitServer _receiveClient : Nat) : Int :=
  let _roundTripDelay : Int := toInt32
    ((toUInt64 ((toUInt64 ((_receiveClient : Int) - _originClient) : Int)
      - (toUInt64 ((_receiveServer : Int) - _transmitServer) : Int)) : Nat) : Int)
  Int.tdiv _roundTripDelay 1000

/-- The function `NtpClient::ReceivedMessage`; `now` is what `gettimeofday` delivers. `none`
is an exception thrown by `std::stoull`. The text written to `std::cout` is left out. -/
def ReceivedMessage (self : NtpClient) (now : timeval) (buffer : Buffer) : Option Received :=
  let _ntpTs : Nat := ntpNow now
  let _sntpMsg := decodeFields buffer
  let _tempOriginate :=
    if _sntpMsg._originateTimestamp > 0 then _sntpMsg._originateTimestamp
    else self.m_originateTimestamp
  (convert_ntp_to_date _tempOriginate).bind fun o =>
  (convert_ntp_to_date _sntpMsg._receiveTimestamp).bind fun r =>
  (convert_ntp_to_date _sntpMsg._transmitTimestamp).bind fun t =>
  (convert_ntp_to_date _ntpTs).bind fun c =>
    let _originClient := o.1
    let _receiveServer := r.1
    let _transmitServer := t.1
    let _receiveClient := c.1
    let _clockOffset := clockOffsetMs _originClient _receiveServer _transmitServer _receiveClient
    let _roundTripDelay :=
      roundTripDelayMs _originClient _receiveServer _transmitServer _receiveClient
    some
      { self := SetClockOffset self _clockOffset
        _ntpTs := _ntpTs
        _sntpMsg := _sntpMsg
        _tempOriginate := _tempOriginate
        _originClient := _originClient
        _receiveServer := _receiveServer
        _transmitServer := _transmitServer
        _receiveClient := _receiveClient
        _clockOffset := _clockOffset
        _roundTripDelay := _roundTripDelay }

/-! ## The exchange -/

/-- What the operating system reports to one call of `Connect`, in the order of the calls:
the two readings of the clock (in `CreateMessage` and in `ReceivedMessage`) and the results
of the Winsock functions. `recvResult = none` is `SOCKET_ERROR`; `some data` is a datagram
of `data.length` bytes copied to the start of `bufferRx`. -/
structure Transport where
  txNow : timeval
  rxNow : timeval
  wsaStartup : Int
  socketValid : Bool
  hostFound : Bool
  connectResult : Int
  sendtoResult : Int
  recvResult : Option (List Byte)

/-- How a call of `Connect` ends. -/
inductive Ending where
  | returned (value : Bool)
  | exited
  | threw
deriving DecidableEq, Repr

/-- Outcome of `Connect`: how it ended, the object after it, and the datagram handed to
`sendto` when that call was reached. -/
structure Outcome where
  ending : Ending
  self : NtpClient
  sent : Option Buffer

def NO_ERROR : Int := 0

def SOCKET_ERROR : Int := -1

/-- The function `NtpClient::Connect`. After a successful `recv` the buffer goes to
`ReceivedMessage`: the call returns true with the object that `ReceivedMessage` leaves, and
ends by the exception if `std::stoull` throws one. -/
def Connect (self : NtpClient) (env : Transport) : Outcome :=
  let created := CreateMessage self env.txNow Buffer.zero
  let SendBuf := created.1
  let self1 := created.2
  if env.wsaStartup ≠ NO_ERROR then
    { ending := .returned false, self := self1, sent := none }
  else if env.socketValid = false then
    { ending := .returned false, self := self1, sent := none }
  else if env.hostFound = false then
    { ending := .exited, self := self1, sent := none }
  else if env.connectResult < 0 then
    { ending := .exited, self := self1, sent := none }
  else if env.sendtoResult = SOCKET_ERROR then
    { ending := .returned false, self := self1, sent := some SendBuf }
  else
    match env.recvResult with
    | none => { ending := .returned false, self := self1, sent := some SendBuf }
    | some data =>
      let bufferRx := Buffer.ofList data
      let received := ReceivedMessage self1 env.rxNow bufferRx
      { ending := if received.isSome then .returned true else .threw
        self := (received.map (fun r => r.self)).getD self1
        sent := some SendBuf }

/-! ## Labels -/

def GetLeapString (_leapIndicator : Nat) : String :=
  match _leapIndicator with
  | 0 => "NoWarning"
  | 1 => "LastMinute61"
  | 2 => "LastMinute59"
  | 3 => "Alarm"
  | _ => ""

def GetModeString (_mode : Nat) : String :=
  match _mode with
  | 1 => "SymmetricActive"
  | 2 => "SymmetricPassive"
  | 3 => "Client"
  | 4 => "Server"
  | 5 => "Broadcast"
  | _ => "Reserved"

def GetStratumString (_stratum : Nat) : String :=
  if _stratum = 0 then "Unspecified"
  else if _stratum = 1 then "PrimaryReference"
  else if _stratum > 1 ∧ _stratum < 16 then "SecondaryReference"
  else "Reserved"

/-! ## Vocabulary of the statements -/

/-- A text made of decimal digits only. -/
def AllDec (l : List Char) : Prop := ∀ c ∈ l, ∃ n, n < 10 ∧ c = Nat.digitChar n

/-- Number read from a run of digits, continuing from `a`. -/
def digitsVal (a : Nat) (l : List Char) : Nat :=
  (l.map (fun c => c.toNat - 48)).foldl (fun a d => 10 * a + d) a

/-- Day-local value `HHMMSSuuuuuu` of a time of day. -/
def dayValue (sec usec : Nat) : Nat :=
  sec % 86400 / 3600 * 10000000000 + sec % 3600 / 60 * 100000000 + sec % 60 * 1000000 + usec

/-- Big-endian value of the eight bytes of the buffer from `offset` on. -/
def bigEndian64 (buffer : Buffer) (offset : Nat) : Nat :=
  ∑ i ∈ Finset.range 8, (buffer.rd (offset + i)).val * 256 ^ (7 - i)

/-- Big-endian value of the four bytes of the buffer from `offset` on. -/
def bigEndian32 (buffer : Buffer) (offset : Nat) : Nat :=
  ∑ i ∈ Finset.range 4, (buffer.rd (offset + i)).val * 256 ^ (3 - i)

/-- Unix time of a 64-bit NTP timestamp, as `convert_ntp_to_date` computes it. -/
def unixOf (ts : Nat) : timeval := convert_ntp_to_unix (splitTimestamp ts)

/-- Microseconds since the Unix epoch of a 64-bit NTP timestamp. -/
def microsOf (ts : Nat) : Int := (unixOf ts).tv_sec * 1000000 + (unixOf ts).tv_usec

/-- Index of the UTC minute (minutes since the Unix epoch) of a 64-bit NTP timestamp. -/
def minuteOf (ts : Nat) : Int := (unixOf ts).tv_sec / 60

/-- The signed quantity `((t1 - t0) + (t2 - t3)) / 2`, rounded down to an integer. -/
def halfSum (t0 t1 t2 t3 : Nat) : Int := (((t1 : Int) - t0) + ((t2 : Int) - t3)) / 2

/-- Day-local value that `convert_ntp_to_date` returns for a timestamp (the conversion
always returns, see `convert_ntp_to_date_total`). -/
def proxyOf (ts : Nat) : Nat := ((convert_ntp_to_date ts).map Prod.fst).getD 0

/-- The timestamp t0 of an exchange: the originate timestamp that `ReceivedMessage` passes to
`convert_ntp_to_date` (the local `_tempOriginate`). -/
def originateOf (self : NtpClient) (now : timeval) (buffer : Buffer) : Nat :=
  ((ReceivedMessage self now buffer).map (fun r => r._tempOriginate)).getD 0

/-- The timestamp t1 of an exchange: the receive timestamp of the reply. -/
def serverReceiveOf (buffer : Buffer) : Nat :=
  GetNtpTimestamp64 NTP_MSG_OFFSET_RECEIVE_TIMESTAMP buffer

/-- The timestamp t2 of an exchange: the transmit timestamp of the reply. -/
def serverTransmitOf (buffer : Buffer) : Nat :=
  GetNtpTimestamp64 NTP_MSG_OFFSET_TRANSMIT_TIMESTAMP buffer

/-- The timestamp t3 of an exchange: the clock reading taken by `ReceivedMessage`. -/
def clientReceiveOf (now : timeval) : Nat := ntpNow now

/-- Seconds field of a 64-bit NTP timestamp, as `convert_ntp_to_date` extracts it. -/
def secondsOf (ts : Nat) : Nat := (splitTimestamp ts).second

/-- Fraction field of a 64-bit NTP timestamp, as `convert_ntp_to_date` extracts it. -/
def fractionOf (ts : Nat) : Nat := (splitTimestamp ts).fraction

/-! ## Example exchanges -/

/-- A 64-bit NTP timestamp from its seconds and its fraction. -/
def ntpStamp (second fraction : Nat) : Nat := second * 4294967296 + fraction

/-- The eight bytes of a 64-bit value in network byte order. -/
def be8 (n : Nat) : List Byte := (natToLeBytes 8 n).reverse

/-- The 48 bytes of a reply with the given first byte, stratum 2, and the given originate,
receive and transmit timestamps; the other fields are zero. -/
def mkReply (byte0 : Byte) (originate receive transmit : Nat) : List Byte :=
  [byte0, 2, 0, 0] ++ List.replicate 12 0 ++ be8 0 ++ be8 originate ++ be8 receive
    ++ be8 transmit

/-- What the operating system reports when every Winsock call succeeds and `recv` delivers
`data`. -/
def okTransport (txNow rxNow : timeval) (data : List Byte) : Transport :=
  { txNow := txNow, rxNow := rxNow, wsaStartup := 0, socketValid := true, hostFound := true,
    connectResult := 0, sendtoResult := 48, recvResult := some data }

/-- NTP seconds of 2019-06-01 12:00:00 UTC (Unix time 1559390400). -/
def noon : Nat := 3768379200

/-- A reply to a request sent at 12:00:00.000000: received by the server at 12:00:00.010000
and sent back at 12:00:00.030000. -/
def replyA (byte0 : Byte) : List Byte :=
  mkReply byte0 (ntpStamp noon 0) (ntpStamp noon 42949673) (ntpStamp noon 128849019)

/-- The reply `replyA` cut to its first 47 bytes. -/
def shortReply : List Byte := (replyA 0x24).take 47

/-- A reply to a request sent at 12:00:00.000000: received by the server at 12:00:00.100000
and sent back at 12:00:00.150000. -/
def replyB : List Byte :=
  mkReply 0x24 (ntpStamp noon 0) (ntpStamp noon 429496730) (ntpStamp noon 644245095)

/-- A reply to a request sent at 00:00:00.000000 by a client whose clock is one hour late:
the server received and answered it at 01:00:00.000000 (2019-06-01). -/
def replyLate : List Byte :=
  mkReply 0x24 (ntpStamp 3768336000 0) (ntpStamp 3768339600 0) (ntpStamp 3768339600 0)

/-- A reply in the minute 2038-01-19 03:15 UTC to a request stamped 03:15:01.000000 by a
client whose clock is one second ahead: received by the server at 03:15:00.010000 and sent
back at 03:15:00.020000 (NTP seconds 61505204 and 61505205, after the wrap of the 32-bit
seconds field in 2036). -/
def reply2038 : List Byte :=
  mkReply 0x24 (ntpStamp 61505205 4294) (ntpStamp 61505204 42949673)
    (ntpStamp 61505204 85899346)

/-- The clock reading 2038-01-19 03:15:01.030000 UTC: Unix time 2147483701, which the 32-bit
`long tv_sec` holds as 2147483701 - 2^32. -/
def now2038 : timeval := { tv_sec := -2147483595, tv_usec := 30000 }

/-- A reply to a request stamped 12:00:00.500000 by a client whose clock is about 205 ms
ahead: received by the server at 12:00:00.300000 and sent back at 12:00:00.310000. -/
def replyAhead : List Byte :=
  mkReply 0x24 (ntpStamp noon 2147483648) (ntpStamp noon 1288490189)
    (ntpStamp noon 1331439862)

/-- A reply of a stratum-3 server whose reference identifier is the IPv4 address
192.168.1.10 of its own time source. -/
def replyRefId : List Byte :=
  [0x24, 3, 0, 0] ++ List.replicate 8 0 ++ [192, 168, 1, 10] ++ be8 0
    ++ be8 (ntpStamp noon 0) ++ be8 (ntpStamp noon 42949673) ++ be8 (ntpStamp noon 128849019)

/-- A reply whose three timestamps all equal the NTP form of the clock reading
12:00:00.050 of 2019-06-01 (fraction 214752659). -/
def replySame : List Byte :=
  mkReply 0x24 (ntpStamp noon 214752659) (ntpStamp noon 214752659) (ntpStamp noon 214752659)

/-- A reply to a request stamped 23:59:59.000000 on 2019-05-31 by a client whose clock is
one second late: the server received and answered it at 00:00:01.000000 on 2019-06-01. -/
def replyMidnight : List Byte :=
  mkReply 0x24 (ntpStamp 3768335999 0) (ntpStamp 3768336001 0) (ntpStamp 3768336001 0)

/-- A reply to a request stamped 12:00:59.500000 on 2019-06-01 by a client whose clock is a
quarter of a second late: the server received and answered it at 12:01:00.000000. -/
def replyMinute : List Byte :=
  mkReply 0x24 (ntpStamp (noon + 59) 2147483648) (ntpStamp (noon + 60) 0)
    (ntpStamp (noon + 60) 0)

/-! ## Decimal text: formatting and `std::stoull` -/

theorem digitChar_isDigit {n : Nat} (h : n < 10) : (Nat.digitChar n).isDigit = true := by
  interval_cases n <;> rfl

theorem digitChar_val {n : Nat} (h : n < 10) : (Nat.digitChar n).toNat - 48 = n := by
  interval_cases n <;> rfl

theorem digitChar_not_space {n : Nat} (h : n < 10) : isspace (Nat.digitChar n) = false := by
  interval_cases n <;> rfl

theorem digitChar_ne_minus {n : Nat} (h : n < 10) : Nat.digitChar n ≠ '-' := by
  interval_cases n <;> decide

theorem digitChar_ne_plus {n : Nat} (h : n < 10) : Nat.digitChar n ≠ '+' := by
  interval_cases n <;> decide

theorem takeDigits_append {l : List Char} (hl : AllDec l) (rest : List Char) :
    takeDigits (l ++ rest) = l.map (fun c => c.toNat - 48) ++ takeDigits rest := by
  induction l with
  | nil => simp
  | cons c t ih =>
    obtain ⟨n, hn, rfl⟩ := hl c (by simp)
    have ht : AllDec t := fun d hd => hl d (by simp [hd])
    simp [takeDigits, digitChar_isDigit hn, ih ht]

theorem decDigits_allDec (fuel n : Nat) : AllDec (decDigits fuel n) := by
  induction fuel generalizing n with
  | zero => intro c hc; simp [decDigits] at hc
  | succ f ih =>
    intro c hc
    unfold decDigits at hc
    split at hc
    · simp at hc; exact ⟨n, by omega, hc⟩
    · simp at hc
      rcases hc with hc | hc
      · exact ih _ c hc
      · exact ⟨n % 10, by omega, hc⟩

theorem decDigits_ne_nil (fuel n : Nat) : decDigits (fuel + 1) n ≠ [] := by
  unfold decDigits
  split <;> simp

theorem decDigits_length (k : Nat) : ∀ fuel n, 1 ≤ k → n < 10 ^ k →
    (decDigits fuel n).length ≤ k := by
  induction k with
  | zero => intro _ _ h; omega
  | succ k ih =>
    intro fuel n _ hn
    cases fuel with
    | zero => simp [decDigits]
    | succ f =>
      unfold decDigits
      split
      · simp
      · rename_i h10
        have hk : 1 ≤ k := by
          rcases Nat.eq_zero_or_pos k with h0 | h0
          · subst h0; simp at hn; omega
          · exact h0
        have : n / 10 < 10 ^ k := by
          rw [Nat.div_lt_iff_lt_mul (by norm_num)]; rw [pow_succ] at hn; exact hn
        have := ih f (n / 10) hk this
        simp; omega

theorem digitsVal_append (a : Nat) (l r : List Char) :
    digitsVal a (l ++ r) = digitsVal (digitsVal a l) r := by
  simp [digitsVal]

theorem digitsVal_decDigits : ∀ fuel n a, n < 10 ^ fuel →
    digitsVal a (decDigits fuel n) = a * 10 ^ (decDigits fuel n).length + n := by
  intro fuel
  induction fuel with
  | zero => intro n a h; simp at h; subst h; simp [decDigits, digitsVal]
  | succ f ih =>
    intro n a hn
    unfold decDigits
    split
    · rename_i h
      simp [digitsVal, digitChar_val h]; ring
    · rename_i h
      have h1 : n / 10 < 10 ^ f := by
        rw [Nat.div_lt_iff_lt_mul (by norm_num)]; rw [pow_succ] at hn; exact hn
      rw [digitsVal_append, ih _ _ h1]
      have h2 : n % 10 < 10 := Nat.mod_lt _ (by norm_num)
      simp only [digitsVal, List.map, List.foldl, digitChar_val h2, List.length_append,
        List.length_singleton, pow_succ]
      have := Nat.div_add_mod n 10
      nlinarith [this]

theorem digitsVal_zeros (a k : Nat) : digitsVal a (List.replicate k '0') = a * 10 ^ k := by
  induction k generalizing a with
  | zero => simp [digitsVal]
  | succ k ih =>
    rw [List.replicate_succ]
    have : digitsVal a ('0' :: List.replicate k '0') = digitsVal (10 * a) (List.replicate k '0') := by
      simp [digitsVal]
    rw [this, ih, pow_succ]; ring

theorem natAbs_tmod (a b : Int) : (Int.tmod a b).natAbs = a.natAbs % b.natAbs := by
  cases a <;> cases b <;> simp [Int.tmod, Int.natAbs_neg] <;> rfl

theorem isDigit_val_le {c : Char} (h : c.isDigit = true) : c.toNat - 48 ≤ 9 := by
  simp [Char.isDigit] at h
  have h2 : c.val.toNat ≤ 57 := h.2
  have : c.toNat = c.val.toNat := rfl
  omega

theorem takeDigits_bound : ∀ (l : List Char) (a : Nat),
    (takeDigits l).foldl (fun a d => 10 * a + d) a < (a + 1) * 10 ^ l.length := by
  intro l
  induction l with
  | nil => intro a; simp [takeDigits]
  | cons c t ih =>
    intro a
    unfold takeDigits
    split
    · rename_i h
      have hc := isDigit_val_le h
      simp only [List.foldl, List.length_cons, pow_succ]
      have := ih (10 * a + (c.toNat - 48))
      have h10 : 0 < 10 ^ t.length := by positivity
      nlinarith
    · simp only [List.foldl, List.length_cons]
      have h10 : 0 < 10 ^ (t.length + 1) := by positivity
      nlinarith

theorem stoull_digit_head {n : Nat} (hn : n < 10) (t : List Char)
    (hlen : (Nat.digitChar n :: t).length ≤ 19) :
    stoull (Nat.digitChar n :: t)
      = some ((takeDigits (Nat.digitChar n :: t)).foldl (fun a d => 10 * a + d) 0) := by
  have hb := takeDigits_bound (Nat.digitChar n :: t) 0
  have hp : (10:Nat) ^ (Nat.digitChar n :: t).length ≤ 10 ^ 19 :=
    Nat.pow_le_pow_right (by norm_num) hlen
  have hne : takeDigits (Nat.digitChar n :: t) ≠ [] := by
    simp [takeDigits, digitChar_isDigit hn]
  simp only [stoull, List.dropWhile, digitChar_not_space hn, digitChar_ne_minus hn,
    digitChar_ne_plus hn, if_false, hne]
  rw [if_neg]
  · simp
  · omega

theorem stoull_minus_head {n : Nat} (hn : n < 10) (t : List Char)
    (hlen : ('-' :: Nat.digitChar n :: t).length ≤ 19) :
    ∃ v, stoull ('-' :: Nat.digitChar n :: t) = some v := by
  have hb := takeDigits_bound (Nat.digitChar n :: t) 0
  have hp : (10:Nat) ^ (Nat.digitChar n :: t).length ≤ 10 ^ 19 :=
    Nat.pow_le_pow_right (by norm_num) (by simp at hlen ⊢; omega)
  have hne : takeDigits (Nat.digitChar n :: t) ≠ [] := by
    simp [takeDigits, digitChar_isDigit hn]
  have hw : isspace '-' = false := by rfl
  simp only [stoull, List.dropWhile, hw, if_true, hne, if_false]
  rw [if_neg]
  · exact ⟨_, rfl⟩
  · omega

theorem putInt_head (w : Nat) (v : Int) :
    ∃ n t, n < 10 ∧
      (putInt w v = Nat.digitChar n :: t ∨ putInt w v = '-' :: Nat.digitChar n :: t) := by
  obtain ⟨d, ds, hds⟩ := List.exists_cons_of_ne_nil (decDigits_ne_nil 9 v.natAbs)
  obtain ⟨n, hn, hd⟩ := decDigits_allDec 10 v.natAbs d (by simp [hds])
  have hz : '0' = Nat.digitChar 0 := rfl
  unfold putInt
  simp only [hds]
  by_cases hv : v < 0
  · simp only [hv, if_true]
    cases hk : (2 - 2 + (w - ([('-' : Char)].length + (d :: ds).length))) with
    | zero =>
      have : w - ([('-' : Char)].length + (d :: ds).length) = 0 := by omega
      rw [this]
      exact ⟨n, ds, hn, Or.inr (by simp [hd])⟩
    | succ k =>
      have : w - ([('-' : Char)].length + (d :: ds).length) = k + 1 := by omega
      rw [this]
      exact ⟨0, List.replicate k '0' ++ d :: ds, by norm_num,
        Or.inr (by simp [List.replicate_succ]; exact hz)⟩
  · simp only [hv, if_false]
    cases hk : (2 - 2 + (w - (([] : List Char).length + (d :: ds).length))) with
    | zero =>
      have : w - (([] : List Char).length + (d :: ds).length) = 0 := by omega
      rw [this]
      exact ⟨n, ds, hn, Or.inl (by simp [hd])⟩
    | succ k =>
      have : w - (([] : List Char).length + (d :: ds).length) = k + 1 := by omega
      rw [this]
      exact ⟨0, List.replicate k '0' ++ d :: ds, by norm_num,
        Or.inl (by simp [List.replicate_succ]; exact hz)⟩

theorem putInt_length_le (w k : Nat) (v : Int) (hk : 1 ≤ k) (hv : v.natAbs < 10 ^ k) :
    (putInt w v).length ≤ max w (k + 1) := by
  have hl := decDigits_length k 10 v.natAbs hk hv
  unfold putInt
  by_cases h : v < 0 <;> simp [h] <;> omega

theorem putInt_nonneg (w : Nat) (v : Int) (h0 : 0 ≤ v) (hw : 1 ≤ w) (hw10 : w ≤ 10)
    (hv : v.natAbs < 10 ^ w) :
    AllDec (putInt w v) ∧ (putInt w v).length = w ∧
      ∀ a, digitsVal a (putInt w v) = a * 10 ^ w + v.natAbs := by
  have hl := decDigits_length w 10 v.natAbs hw hv
  have hneg : ¬ v < 0 := by omega
  have hlt : v.natAbs < 10 ^ 10 := lt_of_lt_of_le hv (Nat.pow_le_pow_right (by norm_num) hw10)
  have hfmt : putInt w v
      = List.replicate (w - (decDigits 10 v.natAbs).length) '0' ++ decDigits 10 v.natAbs := by
    simp [putInt, hneg]
  refine ⟨?_, ?_, ?_⟩
  · rw [hfmt]
    intro c hc
    rcases List.mem_append.1 hc with hc | hc
    · exact ⟨0, by norm_num, by rw [List.eq_of_mem_replicate hc]; rfl⟩
    · exact decDigits_allDec _ _ c hc
  · rw [hfmt]; simp; omega
  · intro a
    rw [hfmt, digitsVal_append, digitsVal_zeros, digitsVal_decDigits _ _ _ hlt, mul_assoc,
      ← pow_add]
    congr 3
    omega

theorem stoull_allDec (s : List Char) (hs : AllDec s) (hne : s ≠ []) (hlen : s.length ≤ 19) :
    stoull s = some (digitsVal 0 s) := by
  obtain ⟨c, t, rfl⟩ := List.exists_cons_of_ne_nil hne
  obtain ⟨n, hn, rfl⟩ := hs c (by simp)
  rw [stoull_digit_head hn t hlen]
  have h := takeDigits_append hs []
  have h0 : takeDigits [] = [] := rfl
  rw [List.append_nil, h0, List.append_nil] at h
  rw [h, digitsVal]

/-! ## The day-local value of a timestamp -/

theorem splitTimestamp_eq (ts : Nat) :
    splitTimestamp ts = { second := ts / 4294967296 % 4294967296, fraction := ts % 4294967296 } := by
  have h1 := Nat.and_pow_two_sub_one_eq_mod ts 32
  have h2 := Nat.and_pow_two_sub_one_eq_mod (ts >>> 32) 32
  have h3 := Nat.shiftRight_eq_div_pow ts 32
  norm_num at h1 h2 h3
  simp only [splitTimestamp]
  rw [show (0xFFFFFFFF : Nat) = 4294967295 from rfl, h2, h1, h3]

theorem unix_bounds (ts : Nat) :
    -2147483648 ≤ (convert_ntp_to_unix (splitTimestamp ts)).tv_sec ∧
    (convert_ntp_to_unix (splitTimestamp ts)).tv_sec < 2147483648 ∧
    (convert_ntp_to_unix (splitTimestamp ts)).tv_usec
      = ((ts % 4294967296 * 1000000 / 4294967296 : Nat) : Int) ∧
    (ts % 4294967296 * 1000000 / 4294967296 : Nat) < 1000000 := by
  rw [splitTimestamp_eq]
  have hu : (ts % 4294967296 * 1000000 / 4294967296 : Nat) < 1000000 := by
    have := Nat.mod_lt ts (show 0 < 4294967296 by norm_num)
    omega
  refine ⟨?_, ?_, ?_, hu⟩
  · simp only [convert_ntp_to_unix, toInt32]; split <;> omega
  · simp only [convert_ntp_to_unix, toInt32]; split <;> omega
  · simp only [convert_ntp_to_unix, toInt32, toUInt32]
    split <;> omega

theorem stoull_dateText_total (d : date_structure) (hh : d.hour.natAbs < 100)
    (hm : d.minute.natAbs < 100) (hs : d.second.natAbs < 100)
    (hu : d.millisecond.natAbs < 1000000) : ∃ v, stoull (dateText d) = some v := by
  have l1 := putInt_length_le 2 2 d.hour (by norm_num) (by norm_num; exact hh)
  have l2 := putInt_length_le 2 2 d.minute (by norm_num) (by norm_num; exact hm)
  have l3 := putInt_length_le 2 2 d.second (by norm_num) (by norm_num; exact hs)
  have l4 := putInt_length_le 6 6 d.millisecond (by norm_num) (by norm_num; exact hu)
  have hlen : (dateText d).length ≤ 19 := by
    simp only [dateText, List.length_append]
    simp at l1 l2 l3 l4
    omega
  obtain ⟨n, t, hn, h | h⟩ := putInt_head 2 d.hour
  · have e : dateText d
        = Nat.digitChar n :: (t ++ putInt 2 d.minute ++ putInt 2 d.second
          ++ putInt 6 d.millisecond) := by
      simp [dateText, h]
    rw [e] at hlen ⊢
    exact ⟨_, stoull_digit_head hn _ hlen⟩
  · have e : dateText d
        = '-' :: Nat.digitChar n :: (t ++ putInt 2 d.minute ++ putInt 2 d.second
          ++ putInt 6 d.millisecond) := by
      simp [dateText, h]
    rw [e] at hlen ⊢
    exact stoull_minus_head hn _ hlen

theorem stoull_dateText_nonneg (d : date_structure)
    (hh : 0 ≤ d.hour ∧ d.hour < 100) (hm : 0 ≤ d.minute ∧ d.minute < 100)
    (hs : 0 ≤ d.second ∧ d.second < 100) (hu : 0 ≤ d.millisecond ∧ d.millisecond < 1000000) :
    stoull (dateText d) = some (d.hour.natAbs * 10000000000 + d.minute.natAbs * 100000000
      + d.second.natAbs * 1000000 + d.millisecond.natAbs) := by
  obtain ⟨a1, b1, c1⟩ := putInt_nonneg 2 d.hour hh.1 (by norm_num) (by norm_num)
    (by norm_num; omega)
  obtain ⟨a2, b2, c2⟩ := putInt_nonneg 2 d.minute hm.1 (by norm_num) (by norm_num)
    (by norm_num; omega)
  obtain ⟨a3, b3, c3⟩ := putInt_nonneg 2 d.second hs.1 (by norm_num) (by norm_num)
    (by norm_num; omega)
  obtain ⟨a4, b4, c4⟩ := putInt_nonneg 6 d.millisecond hu.1 (by norm_num) (by norm_num)
    (by norm_num; omega)
  have hall : AllDec (dateText d) := by
    intro c hc
    simp only [dateText, List.mem_append] at hc
    rcases hc with ((hc | hc) | hc) | hc
    · exact a1 c hc
    · exact a2 c hc
    · exact a3 c hc
    · exact a4 c hc
  have hlen : (dateText d).length = 12 := by
    simp only [dateText, List.length_append, b1, b2, b3, b4]
  have hne : dateText d ≠ [] := by
    intro h; rw [h] at hlen; simp at hlen
  rw [stoull_allDec _ hall hne (by omega)]
  simp only [dateText, digitsVal_append, c1, c2, c3, c4]
  refine congrArg some ?_
  ring

theorem dateFields_bounds (u : timeval) :
    (dateFields u).hour.natAbs < 100 ∧ (dateFields u).minute.natAbs < 100 ∧
      (dateFields u).second.natAbs < 100 := by
  simp only [dateFields, Int.natAbs_tdiv, natAbs_tmod]
  have h1 := Nat.mod_lt u.tv_sec.natAbs (show 0 < 86400 by norm_num)
  have h2 := Nat.mod_lt u.tv_sec.natAbs (show 0 < 3600 by norm_num)
  have h3 := Nat.mod_lt u.tv_sec.natAbs (show 0 < 60 by norm_num)
  refine ⟨?_, ?_, ?_⟩
  · show (u.tv_sec.natAbs % 86400) / 3600 < 100
    omega
  · show (u.tv_sec.natAbs % 3600) / 60 < 100
    omega
  · show u.tv_sec.natAbs % 60 < 100
    omega

/-- The conversion never throws: every 64-bit pattern has a day-local value. -/
theorem convert_ntp_to_date_total (ts : Nat) :
    ∃ v, convert_ntp_to_date ts
      = some (v, dateFields (convert_ntp_to_unix (splitTimestamp ts))) := by
  obtain ⟨_, _, hu, hlt⟩ := unix_bounds ts
  obtain ⟨hh, hm, hs⟩ := dateFields_bounds (convert_ntp_to_unix (splitTimestamp ts))
  have hms : (dateFields (convert_ntp_to_unix (splitTimestamp ts))).millisecond.natAbs
      < 1000000 := by
    simp only [dateFields, hu]; omega
  obtain ⟨v, hv⟩ := stoull_dateText_total _ hh hm hs hms
  exact ⟨v, by simp [convert_ntp_to_date, hv]⟩

theorem convert_ntp_to_date_nonneg (ts : Nat)
    (h : 0 ≤ (convert_ntp_to_unix (splitTimestamp ts)).tv_sec) :
    convert_ntp_to_date ts
      = some (dayValue (convert_ntp_to_unix (splitTimestamp ts)).tv_sec.toNat
          (ts % 4294967296 * 1000000 / 4294967296),
        dateFields (convert_ntp_to_unix (splitTimestamp ts))) := by
  obtain ⟨_, _, hu, hlt⟩ := unix_bounds ts
  generalize hx : convert_ntp_to_unix (splitTimestamp ts) = u at *
  obtain ⟨sec, usec⟩ := u
  simp only at h hu
  obtain ⟨x, rfl⟩ : ∃ x : Nat, sec = (x : Int) := ⟨sec.toNat, by omega⟩
  have e1 : Int.tmod (x : Int) 86400 = ((x % 86400 : Nat) : Int) := by
    rw [Int.tmod_eq_emod (by omega) (by norm_num)]; omega
  have e2 : Int.tmod (x : Int) 3600 = ((x % 3600 : Nat) : Int) := by
    rw [Int.tmod_eq_emod (by omega) (by norm_num)]; omega
  have e3 : Int.tmod (x : Int) 60 = ((x % 60 : Nat) : Int) := by
    rw [Int.tmod_eq_emod (by omega) (by norm_num)]; omega
  have f1 : Int.tdiv ((x % 86400 : Nat) : Int) 3600 = ((x % 86400 / 3600 : Nat) : Int) := by
    rw [Int.tdiv_eq_ediv (by omega) (by norm_num)]; omega
  have f2 : Int.tdiv ((x % 3600 : Nat) : Int) 60 = ((x % 3600 / 60 : Nat) : Int) := by
    rw [Int.tdiv_eq_ediv (by omega) (by norm_num)]; omega
  have hd : dateFields { tv_sec := (x : Int), tv_usec := usec } =
      { hour := ((x % 86400 / 3600 : Nat) : Int),
        minute := ((x % 3600 / 60 : Nat) : Int),
        second := ((x % 60 : Nat) : Int),
        millisecond := ((ts % 4294967296 * 1000000 / 4294967296 : Nat) : Int) } := by
    simp only [dateFields, e1, e2, e3, f1, f2, hu]
  have hs := stoull_dateText_nonneg (dateFields { tv_sec := (x : Int), tv_usec := usec })
    (by rw [hd]; constructor <;> simp <;> omega) (by rw [hd]; constructor <;> simp <;> omega)
    (by rw [hd]; constructor <;> simp <;> omega) (by rw [hd]; constructor <;> simp <;> omega)
  simp only [convert_ntp_to_date, hx, hs, Option.map_some', dayValue]
  rw [hd]
  simp only [Int.natAbs_ofNat, Int.toNat_ofNat]

theorem GetNtpTimestamp64_eq (offset : Nat) (buffer : Buffer) :
    GetNtpTimestamp64 offset buffer = bigEndian64 buffer offset := by
  simp [GetNtpTimestamp64, bigEndian64, List.range, List.range.loop, List.replicate,
    leBytesToNat, Finset.sum_range_succ]
  ring

/-- C5: for every 48-byte buffer and every offset in {16, 24, 32, 40}, `GetNtpTimestamp64`
returns the big-endian unsigned value of the eight bytes at the offset, each byte counted
with its unsigned value 0..255; its high 32 bits are the big-endian value of the first four
bytes (the NTP seconds) and its low 32 bits that of the last four (the fraction). -/
theorem GetNtpTimestamp64_bigEndian (buffer : Buffer) (offset : Nat)
    (h : offset = 16 ∨ offset = 24 ∨ offset = 32 ∨ offset = 40) :
    GetNtpTimestamp64 offset buffer
        = ∑ i ∈ Finset.range 8, (buffer.rd (offset + i)).val * 256 ^ (7 - i) ∧
      GetNtpTimestamp64 offset buffer / 2 ^ 32 = bigEndian32 buffer offset ∧
      GetNtpTimestamp64 offset buffer % 2 ^ 32 = bigEndian32 buffer (offset + 4) ∧
      (∀ i : Fin 8, buffer.rd (offset + i.val) = buffer ⟨offset + i.val, by omega⟩) := by
  refine ⟨GetNtpTimestamp64_eq offset buffer, ?_, ?_, ?_⟩
  · rw [GetNtpTimestamp64_eq]
    simp only [bigEndian64, bigEndian32, Finset.sum_range_succ, Finset.sum_range_zero]
    have h0 := (buffer.rd (offset + 0)).isLt
    have h1 := (buffer.rd (offset + 1)).isLt
    have h2 := (buffer.rd (offset + 2)).isLt
    have h3 := (buffer.rd (offset + 3)).isLt
    have h4 := (buffer.rd (offset + 4)).isLt
    have h5 := (buffer.rd (offset + 5)).isLt
    have h6 := (buffer.rd (offset + 6)).isLt
    have h7 := (buffer.rd (offset + 7)).isLt
    norm_num
    omega
  · rw [GetNtpTimestamp64_eq]
    simp only [bigEndian64, bigEndian32, Finset.sum_range_succ, Finset.sum_range_zero]
    have h0 := (buffer.rd (offset + 0)).isLt
    have h1 := (buffer.rd (offset + 1)).isLt
    have h2 := (buffer.rd (offset + 2)).isLt
    have h3 := (buffer.rd (offset + 3)).isLt
    have h4 := (buffer.rd (offset + 4)).isLt
    have h5 := (buffer.rd (offset + 5)).isLt
    have h6 := (buffer.rd (offset + 6)).isLt
    have h7 := (buffer.rd (offset + 7)).isLt
    norm_num [add_assoc]
    omega
  · intro i
    have := i.isLt
    simp only [Buffer.rd]
    rw [dif_pos (by omega)]

theorem ntpNow_eq (now : timeval) :
    ntpNow now = (convert_unix_to_ntp now).second * 4294967296
      + (convert_unix_to_ntp now).fraction ∧ ntpNow now < 18446744073709551616 := by
  have hs : (convert_unix_to_ntp now).second < 4294967296 := by
    simp only [convert_unix_to_ntp, toUInt32]; omega
  have hf : (convert_unix_to_ntp now).fraction < 2 ^ 32 := by
    simp only [convert_unix_to_ntp, toUInt32]; omega
  have h1 : ntpNow now = 2 ^ 32 * (convert_unix_to_ntp now).second
      ||| (convert_unix_to_ntp now).fraction := by
    simp only [ntpNow, Nat.shiftLeft_eq]
    rw [Nat.mod_eq_of_lt (by omega), Nat.mul_comm]
  rw [h1, ← Nat.mul_add_lt_is_or hf]
  constructor <;> omega

theorem natToLeBytes_eight (n : Nat) :
    natToLeBytes 8 n = [Fin.ofNat (n % 256), Fin.ofNat (n / 256 % 256),
      Fin.ofNat (n / 256 / 256 % 256), Fin.ofNat (n / 256 / 256 / 256 % 256),
      Fin.ofNat (n / 256 / 256 / 256 / 256 % 256),
      Fin.ofNat (n / 256 / 256 / 256 / 256 / 256 % 256),
      Fin.ofNat (n / 256 / 256 / 256 / 256 / 256 / 256 % 256),
      Fin.ofNat (n / 256 / 256 / 256 / 256 / 256 / 256 / 256 % 256)] := by
  simp [natToLeBytes]

/-- The request written into a zeroed buffer, byte by byte. -/
theorem CreateMessage_zero_bytes (self : NtpClient) (now : timeval) (i : Fin 48) :
    ((CreateMessage self now Buffer.zero).1 i).val =
      if i.val = 0 then 27
      else if 24 ≤ i.val ∧ i.val ≤ 31 then ntpNow now / 256 ^ (31 - i.val) % 256
      else 0 := by
  simp only [CreateMessage, natToLeBytes_eight, List.range, List.range.loop, List.foldl,
    NTP_MSG_OFFSET_ORIGINATE_TIMESTAMP, Buffer.wr, Buffer.zero, intToChar]
  fin_cases i <;> simp [Fin.ofNat, Nat.div_div_eq_div_mul]
  rfl

theorem proxyOf_spec (ts : Nat) :
    convert_ntp_to_date ts = some (proxyOf ts, dateFields (unixOf ts)) := by
  obtain ⟨v, hv⟩ := convert_ntp_to_date_total ts
  simp [proxyOf, hv, unixOf]

theorem decodeFields_timestamps (buffer : Buffer) :
    (decodeFields buffer)._originateTimestamp
        = GetNtpTimestamp64 NTP_MSG_OFFSET_ORIGINATE_TIMESTAMP buffer ∧
      (decodeFields buffer)._receiveTimestamp = serverReceiveOf buffer ∧
      (decodeFields buffer)._transmitTimestamp = serverTransmitOf buffer :=
  ⟨rfl, rfl, rfl⟩

/-- The function `ReceivedMessage` always returns; its result in terms of its own fields. -/
theorem ReceivedMessage_some (self : NtpClient) (now : timeval) (buffer : Buffer) :
    ∃ r, ReceivedMessage self now buffer = some r ∧
      r.self = SetClockOffset self r._clockOffset ∧
      r._clockOffset
        = clockOffsetMs r._originClient r._receiveServer r._transmitServer r._receiveClient ∧
      r._roundTripDelay
        = roundTripDelayMs r._originClient r._receiveServer r._transmitServer r._receiveClient ∧
      r._originClient = proxyOf r._tempOriginate ∧
      r._receiveServer = proxyOf (serverReceiveOf buffer) ∧
      r._transmitServer = proxyOf (serverTransmitOf buffer) ∧
      r._receiveClient = proxyOf (clientReceiveOf now) ∧
      r._tempOriginate = (if GetNtpTimestamp64 NTP_MSG_OFFSET_ORIGINATE_TIMESTAMP buffer > 0
        then GetNtpTimestamp64 NTP_MSG_OFFSET_ORIGINATE_TIMESTAMP buffer
        else self.m_originateTimestamp) ∧
      r._sntpMsg = decodeFields buffer := by
  obtain ⟨e0, e1, e2⟩ := decodeFields_timestamps buffer
  rw [← e0, ← e1, ← e2]
  unfold ReceivedMessage clientReceiveOf
  generalize decodeFields buffer = msg
  generalize ntpNow now = t3
  dsimp only
  generalize (if msg._originateTimestamp > 0 then msg._originateTimestamp
    else self.m_originateTimestamp) = t0
  rw [proxyOf_spec, proxyOf_spec, proxyOf_spec, proxyOf_spec]
  rw [Option.some_bind, Option.some_bind, Option.some_bind, Option.some_bind]
  refine ⟨_, rfl, ?_, ?_, ?_, ?_, ?_, ?_, ?_, ?_, ?_⟩ <;> dsimp only

theorem stoull_lt (s : List Char) (v : Nat) (h : stoull s = some v) :
    v < 18446744073709551616 := by
  unfold stoull at h
  dsimp only at h
  split_ifs at h with h1 h2 h3
  · have := Option.some.inj h
    rw [← this]
    exact Nat.mod_lt _ (by norm_num)
  · have := Option.some.inj h
    omega

theorem proxyOf_lt (ts : Nat) : proxyOf ts < 18446744073709551616 := by
  have h := proxyOf_spec ts
  unfold convert_ntp_to_date at h
  dsimp only at h
  cases hs : stoull (dateText (dateFields (convert_ntp_to_unix (splitTimestamp ts)))) with
  | none => rw [hs] at h; cases h
  | some v =>
    rw [hs] at h
    have hv := stoull_lt _ _ hs
    simp only [Option.map_some', Option.some.injEq, Prod.mk.injEq] at h
    omega

theorem clockOffsetMs_eq (o r t c : Nat) (ho : o < 18446744073709551616)
    (hr : r < 18446744073709551616) (ht : t < 18446744073709551616)
    (hc : c < 18446744073709551616)
    (hfit : -2147483648 ≤ halfSum o r t c ∧ halfSum o r t c < 2147483648) :
    clockOffsetMs o r t c = Int.tdiv (halfSum o r t c) 1000 := by
  unfold clockOffsetMs
  dsimp only
  refine congrArg (fun z => Int.tdiv z 1000) ?_
  unfold halfSum at hfit ⊢
  unfold toInt32 toUInt64
  dsimp only
  split_ifs <;> omega

theorem tdiv_neg_of_le (x : Int) (h : x ≤ -1000) : Int.tdiv x 1000 < 0 := by
  obtain ⟨y, rfl⟩ : ∃ y : Int, x = -y := ⟨-x, by omega⟩
  rw [Int.neg_tdiv, Int.tdiv_eq_ediv (by omega) (by norm_num)]
  omega

theorem tdiv_pos_of_ge (x : Int) (h : 1000 ≤ x) : 0 < Int.tdiv x 1000 := by
  rw [Int.tdiv_eq_ediv (by omega) (by norm_num)]
  omega

/-- What lines 252-253 compute on ordered values: the elapsed time plus the time the server
held the request. -/
theorem roundTripDelayMs_eq (t0 t1 t2 t3 : Nat) (h01 : t0 ≤ t1) (h12 : t1 ≤ t2)
    (h23 : t2 ≤ t3) (h3 : t3 < 18446744073709551616)
    (hfit : (t3 - t0) + (t2 - t1) < 2147483648) :
    roundTripDelayMs t0 t1 t2 t3 = ((((t3 - t0) + (t2 - t1) : Nat) : Int)) / 1000 := by
  unfold roundTripDelayMs
  dsimp only
  have key : toInt32 ((toUInt64 ((toUInt64 ((t3 : Int) - t0) : Int)
      - (toUInt64 ((t1 : Int) - t2) : Int)) : Nat) : Int)
      = (((t3 - t0) + (t2 - t1) : Nat) : Int) := by
    unfold toInt32 toUInt64
    dsimp only
    split_ifs <;> omega
  rw [key, Int.tdiv_eq_ediv (by omega) (by norm_num)]

/-! ## Decoding of the reply -/

/-- C3 (the code departs from the claim): for the reply `replyA` read at 12:00:00.050000 the
four day-local values are ordered, 50 ms elapsed and the server held the request for 20 ms,
so the claimed delay is 30; `ReceivedMessage` computes 70, the elapsed time plus the
server's processing time. -/
theorem roundTripDelay_adds_processing_time :
    (ReceivedMessage NtpClient.new { tv_sec := 1559390400, tv_usec := 50000 }
        (Buffer.ofList (replyA 0x24))).map
      (fun r => (r._originClient, r._receiveServer, r._transmitServer, r._receiveClient,
        r._roundTripDelay))
      = some (120000000000, 120000010000, 120000030000, 120000050000, 70) ∧
    Int.tdiv (((120000050000 : Int) - 120000000000) - (120000030000 - 120000010000)) 1000
      = 30 := by
  constructor
  · decide
  · decide

set_option maxRecDepth 100000 in
/-- What the source computes for the leap indicator, for every value of byte 0. -/
theorem leapIndicator_of_byte (buffer : Buffer) :
    (decodeFields buffer)._leapIndicator
      = if (buffer 0).val < 128 then (buffer 0).val / 64 else 252 + (buffer 0).val / 64 := by
  have h : ∀ b : Byte, toUChar (charToInt b >>> 6)
      = if b.val < 128 then b.val / 64 else 252 + b.val / 64 := by decide
  exact h (buffer 0)

/-- C4 (the code departs from the claim): a reply whose byte 0 is 0xE4 (leap indicator 3,
version 4, mode 4, what a server that is not synchronised sends) has bits [7:6] equal to 3,
and `ReceivedMessage` decodes the leap indicator 255. -/
theorem leapIndicator_of_alarm_reply :
    (replyA 0xE4).head? = some 0xE4 ∧ (0xE4 : Nat) / 64 = 3 ∧
    (ReceivedMessage NtpClient.new { tv_sec := 1559390400, tv_usec := 50000 }
        (Buffer.ofList (replyA 0xE4))).map (fun r => r._sntpMsg._leapIndicator)
      = some 255 := by
  refine ⟨by decide, by decide, by decide⟩

/-! ## The paths through `Connect` -/

theorem Connect_startup_fails (self : NtpClient) (env : Transport)
    (h1 : env.wsaStartup ≠ NO_ERROR) :
    Connect self env =
      { ending := .returned false, self := (CreateMessage self env.txNow Buffer.zero).2,
        sent := none } := by
  unfold Connect
  dsimp only
  rw [if_pos h1]

theorem Connect_socket_fails (self : NtpClient) (env : Transport)
    (h1 : env.wsaStartup = NO_ERROR) (h2 : env.socketValid = false) :
    Connect self env =
      { ending := .returned false, self := (CreateMessage self env.txNow Buffer.zero).2,
        sent := none } := by
  unfold Connect
  dsimp only
  rw [if_neg (by simpa using h1), if_pos h2]

theorem Connect_host_fails (self : NtpClient) (env : Transport)
    (h1 : env.wsaStartup = NO_ERROR) (h2 : env.socketValid = true)
    (h3 : env.hostFound = false) :
    Connect self env =
      { ending := .exited, self := (CreateMessage self env.txNow Buffer.zero).2,
        sent := none } := by
  unfold Connect
  dsimp only
  rw [if_neg (by simpa using h1), if_neg (by simp [h2]), if_pos h3]

theorem Connect_connect_fails (self : NtpClient) (env : Transport)
    (h1 : env.wsaStartup = NO_ERROR) (h2 : env.socketValid = true)
    (h3 : env.hostFound = true) (h4 : env.connectResult < 0) :
    Connect self env =
      { ending := .exited, self := (CreateMessage self env.txNow Buffer.zero).2,
        sent := none } := by
  unfold Connect
  dsimp only
  rw [if_neg (by simpa using h1), if_neg (by simp [h2]), if_neg (by simp [h3]), if_pos h4]

theorem Connect_send_fails (self : NtpClient) (env : Transport)
    (h1 : env.wsaStartup = NO_ERROR) (h2 : env.socketValid = true)
    (h3 : env.hostFound = true) (h4 : 0 ≤ env.connectResult)
    (h5 : env.sendtoResult = SOCKET_ERROR) :
    Connect self env =
      { ending := .returned false, self := (CreateMessage self env.txNow Buffer.zero).2,
        sent := some (CreateMessage self env.txNow Buffer.zero).1 } := by
  unfold Connect
  dsimp only
  rw [if_neg (by simpa using h1), if_neg (by simp [h2]), if_neg (by simp [h3]),
    if_neg (by omega), if_pos h5]

theorem Connect_recv_fails (self : NtpClient) (env : Transport)
    (h1 : env.wsaStartup = NO_ERROR) (h2 : env.socketValid = true)
    (h3 : env.hostFound = true) (h4 : 0 ≤ env.connectResult)
    (h5 : env.sendtoResult ≠ SOCKET_ERROR) (h6 : env.recvResult = none) :
    Connect self env =
      { ending := .returned false, self := (CreateMessage self env.txNow Buffer.zero).2,
        sent := some (CreateMessage self env.txNow Buffer.zero).1 } := by
  unfold Connect
  dsimp only
  rw [if_neg (by simpa using h1), if_neg (by simp [h2]), if_neg (by simp [h3]),
    if_neg (by omega), if_neg h5, h6]

theorem Connect_success (self : NtpClient) (env : Transport) (data : List Byte)
    (h1 : env.wsaStartup = NO_ERROR) (h2 : env.socketValid = true)
    (h3 : env.hostFound = true) (h4 : 0 ≤ env.connectResult)
    (h5 : env.sendtoResult ≠ SOCKET_ERROR) (h6 : env.recvResult = some data) :
    ∃ r, ReceivedMessage (CreateMessage self env.txNow Buffer.zero).2 env.rxNow
        (Buffer.ofList data) = some r ∧
      Connect self env =
        { ending := .returned true, self := r.self,
          sent := some (CreateMessage self env.txNow Buffer.zero).1 } := by
  obtain ⟨r, hrm, _⟩ := ReceivedMessage_some (CreateMessage self env.txNow Buffer.zero).2
        env.rxNow (Buffer.ofList data)
  refine ⟨r, hrm, ?_⟩
  unfold Connect
  dsimp only
  rw [if_neg (by simpa using h1), if_neg (by simp [h2]), if_neg (by simp [h3]),
    if_neg (by omega), if_neg h5, h6]
  dsimp only
  rw [hrm]
  rfl

theorem Connect_sent (self : NtpClient) (env : Transport) :
    (Connect self env).sent
        = (if env.wsaStartup = NO_ERROR ∧ env.socketValid = true ∧ env.hostFound = true
              ∧ 0 ≤ env.connectResult
            then some (CreateMessage self env.txNow Buffer.zero).1 else none) := by
  by_cases h1 : env.wsaStartup = NO_ERROR
  · cases h2 : env.socketValid with
    | false =>
      rw [Connect_socket_fails self env h1 h2, if_neg (by simp)]
    | true =>
      cases h3 : env.hostFound with
      | false => rw [Connect_host_fails self env h1 h2 h3, if_neg (by simp)]
      | true =>
        by_cases h4 : 0 ≤ env.connectResult
        · rw [if_pos ⟨h1, rfl, rfl, h4⟩]
          by_cases h5 : env.sendtoResult = SOCKET_ERROR
          · rw [Connect_send_fails self env h1 h2 h3 h4 h5]
          · cases h6 : env.recvResult with
            | none => rw [Connect_recv_fails self env h1 h2 h3 h4 h5 h6]
            | some data =>
              obtain ⟨r, _, hc⟩ := Connect_success self env data h1 h2 h3 h4 h5 h6
              rw [hc]
        · rw [Connect_connect_fails self env h1 h2 h3 (by omega), if_neg (by simp; omega)]
  · rw [Connect_startup_fails self env h1, if_neg (by simp [h1])]

/-- C10: whenever `Connect` returns false (`WSAStartup`, `socket`, `sendto` or `recv`
reported an error), `GetClockOffset` gives the same value after the call as before it. -/
theorem Connect_false_keeps_offset (self : NtpClient) (env : Transport)
    (h : (Connect self env).ending = Ending.returned false) :
    GetClockOffset (Connect self env).self = GetClockOffset self := by
  by_cases h1 : env.wsaStartup = NO_ERROR
  · cases h2 : env.socketValid with
    | false => rw [Connect_socket_fails self env h1 h2]; rfl
    | true =>
      cases h3 : env.hostFound with
      | false => rw [Connect_host_fails self env h1 h2 h3]; rfl
      | true =>
        by_cases h4 : 0 ≤ env.connectResult
        · by_cases h5 : env.sendtoResult = SOCKET_ERROR
          · rw [Connect_send_fails self env h1 h2 h3 h4 h5]; rfl
          · cases h6 : env.recvResult with
            | none => rw [Connect_recv_fails self env h1 h2 h3 h4 h5 h6]; rfl
            | some data =>
              obtain ⟨r, _, hc⟩ := Connect_success self env data h1 h2 h3 h4 h5 h6
              rw [hc] at h
              cases h
        · rw [Connect_connect_fails self env h1 h2 h3 (by omega)]; rfl
  · rw [Connect_startup_fails self env h1]; rfl

/-- An object whose stored offset is 42 ms and a call in which `WSAStartup` fails: `Connect`
returns false and the offset is still 42. -/
theorem Connect_false_keeps_offset_witness :
    (Connect { m_clockOffset := 42, m_originateTimestamp := 0 }
        { okTransport { tv_sec := 1559390400, tv_usec := 0 }
            { tv_sec := 1559390400, tv_usec := 50000 } (replyA 0x24) with
          wsaStartup := 10091 }).ending = Ending.returned false ∧
      GetClockOffset (Connect { m_clockOffset := 42, m_originateTimestamp := 0 }
        { okTransport { tv_sec := 1559390400, tv_usec := 0 }
            { tv_sec := 1559390400, tv_usec := 50000 } (replyA 0x24) with
          wsaStartup := 10091 }).self = 42 :=
  ⟨by decide, Connect_false_keeps_offset _ _ (by decide)⟩

/-- C8: for every reply and every cached `m_originateTimestamp`, the originate timestamp
that `ReceivedMessage` converts to the day-local t0 of the offset and delay computation is
the echoed originate timestamp (bytes 24..31 of the reply, big-endian) when that value is
not zero and the cached `m_originateTimestamp` when it is zero. -/
theorem ReceivedMessage_originate_selection (self : NtpClient) (now : timeval)
    (buffer : Buffer) :
    ∃ r, ReceivedMessage self now buffer = some r ∧
      r._tempOriginate = (if bigEndian64 buffer 24 = 0 then self.m_originateTimestamp
        else bigEndian64 buffer 24) ∧
      convert_ntp_to_date r._tempOriginate
        = some (r._originClient, dateFields (unixOf r._tempOriginate)) ∧
      r._clockOffset
        = clockOffsetMs r._originClient r._receiveServer r._transmitServer r._receiveClient ∧
      r._roundTripDelay
        = roundTripDelayMs r._originClient r._receiveServer r._transmitServer r._receiveClient ∧
      GetClockOffset r.self = r._clockOffset := by
  obtain ⟨r, hr, hself, hoff, hrtd, h0, _, _, _, ht, _⟩ := ReceivedMessage_some self now buffer
  refine ⟨r, hr, ?_, ?_, hoff, hrtd, ?_⟩
  · rw [ht, GetNtpTimestamp64_eq]
    show (if bigEndian64 buffer 24 > 0 then bigEndian64 buffer 24
      else self.m_originateTimestamp) = _
    by_cases hz : bigEndian64 buffer 24 = 0
    · rw [if_pos hz, if_neg (by omega)]
    · rw [if_neg hz, if_pos (by omega)]
  · rw [h0]; exact proxyOf_spec _
  · rw [hself]; rfl

/-- C9, as the code has it: for every outcome of `recv` that is not an error, whatever the
number of bytes delivered (48 or not, 47 for example), `Connect` passes the zero-initialised
48-byte buffer holding the delivered bytes to `ReceivedMessage`, stores the offset computed
from it and returns true. -/
theorem Connect_decodes_any_length (self : NtpClient) (env : Transport) (data : List Byte)
    (h1 : env.wsaStartup = NO_ERROR) (h2 : env.socketValid = true)
    (h3 : env.hostFound = true) (h4 : 0 ≤ env.connectResult)
    (h5 : env.sendtoResult ≠ SOCKET_ERROR) (h6 : env.recvResult = some data) :
    ∃ r, ReceivedMessage (CreateMessage self env.txNow Buffer.zero).2 env.rxNow
          (Buffer.ofList data) = some r ∧
      (Connect self env).ending = Ending.returned true ∧
      GetClockOffset (Connect self env).self = r._clockOffset ∧
      (∀ i : Fin 48, Buffer.ofList data i = data.getD i.val 0) := by
  obtain ⟨r, hr, hself, _⟩ := ReceivedMessage_some (CreateMessage self env.txNow Buffer.zero).2
    env.rxNow (Buffer.ofList data)
  obtain ⟨r', hr', hc⟩ := Connect_success self env data h1 h2 h3 h4 h5 h6
  have : r' = r := Option.some.inj (hr'.symm.trans hr)
  subst this
  refine ⟨r', hr, ?_, ?_, fun _ => rfl⟩
  · rw [hc]
  · rw [hc]
    show GetClockOffset r'.self = _
    rw [hself]; rfl

/-- C9 fails on the code: `recv` delivers 47 bytes without an error (the request left at
12:00:00.000, the reply is read at 12:00:00.050); `Connect` returns true and the offset,
0 before the call, is -5 after it. -/
theorem Connect_short_reply_counterexample :
    shortReply.length = 47 ∧
    (okTransport { tv_sec := 1559390400, tv_usec := 0 }
      { tv_sec := 1559390400, tv_usec := 50000 } shortReply).recvResult = some shortReply ∧
    GetClockOffset NtpClient.new = 0 ∧
    (Connect NtpClient.new (okTransport { tv_sec := 1559390400, tv_usec := 0 }
      { tv_sec := 1559390400, tv_usec := 50000 } shortReply)).ending = Ending.returned true ∧
    GetClockOffset (Connect NtpClient.new (okTransport { tv_sec := 1559390400, tv_usec := 0 }
      { tv_sec := 1559390400, tv_usec := 50000 } shortReply)).self = -5 := by
  refine ⟨by decide, by decide, by decide, by decide, by decide⟩

/-- A 47-byte reply on a call whose Winsock functions all succeed. -/
theorem Connect_decodes_any_length_witness :
    shortReply.length = 47 ∧
    ∃ r, ReceivedMessage (CreateMessage NtpClient.new { tv_sec := 1559390400, tv_usec := 0 }
          Buffer.zero).2 { tv_sec := 1559390400, tv_usec := 50000 }
          (Buffer.ofList shortReply) = some r ∧
      (Connect NtpClient.new (okTransport { tv_sec := 1559390400, tv_usec := 0 }
        { tv_sec := 1559390400, tv_usec := 50000 } shortReply)).ending
          = Ending.returned true ∧
      GetClockOffset (Connect NtpClient.new (okTransport { tv_sec := 1559390400, tv_usec := 0 }
        { tv_sec := 1559390400, tv_usec := 50000 } shortReply)).self = r._clockOffset ∧
      (∀ i : Fin 48, Buffer.ofList shortReply i = shortReply.getD i.val 0) :=
  ⟨by decide, Connect_decodes_any_length NtpClient.new
    (okTransport { tv_sec := 1559390400, tv_usec := 0 }
      { tv_sec := 1559390400, tv_usec := 50000 } shortReply) shortReply
    (by decide) (by decide) (by decide) (by decide) (by decide) (by decide)⟩

theorem originateOf_eq (self : NtpClient) (now : timeval) (buffer : Buffer) (r : Received)
    (hr : ReceivedMessage self now buffer = some r) :
    originateOf self now buffer = r._tempOriginate := by
  unfold originateOf
  rw [hr]
  rfl

/-- The result of `ReceivedMessage` in terms of the four timestamps of the exchange. -/
theorem ReceivedMessage_offset (self : NtpClient) (now : timeval) (buffer : Buffer) :
    (ReceivedMessage self now buffer).map
        (fun r => (r._originClient, r._receiveServer, r._transmitServer, r._receiveClient,
          GetClockOffset r.self))
      = some (proxyOf (originateOf self now buffer), proxyOf (serverReceiveOf buffer),
          proxyOf (serverTransmitOf buffer), proxyOf (clientReceiveOf now),
          clockOffsetMs (proxyOf (originateOf self now buffer))
            (proxyOf (serverReceiveOf buffer)) (proxyOf (serverTransmitOf buffer))
            (proxyOf (clientReceiveOf now))) := by
  obtain ⟨r, hr, hself, hoff, _, h0, h1, h2, h3, _, _⟩ := ReceivedMessage_some self now buffer
  rw [originateOf_eq self now buffer r hr, hr, Option.map_some', ← h0, ← h1, ← h2, ← h3,
    ← hoff, hself]
  rfl

/-- C2, as the code has it: for the four day-local values t0, t1, t2, t3 that
`convert_ntp_to_date` produces in an exchange, whenever the signed quantity
`((t1 - t0) + (t2 - t3)) / 2`, rounded down to an integer, fits a 32-bit signed integer, the
offset that `ReceivedMessage` stores is that integer divided by 1000 with truncation. -/
theorem clockOffset_formula (self : NtpClient) (now : timeval) (buffer : Buffer)
    (hfit : -2147483648 ≤ halfSum (proxyOf (originateOf self now buffer))
        (proxyOf (serverReceiveOf buffer)) (proxyOf (serverTransmitOf buffer))
        (proxyOf (clientReceiveOf now)) ∧
      halfSum (proxyOf (originateOf self now buffer)) (proxyOf (serverReceiveOf buffer))
        (proxyOf (serverTransmitOf buffer)) (proxyOf (clientReceiveOf now)) < 2147483648) :
    (ReceivedMessage self now buffer).map
        (fun r => (r._originClient, r._receiveServer, r._transmitServer, r._receiveClient,
          GetClockOffset r.self))
      = some (proxyOf (originateOf self now buffer), proxyOf (serverReceiveOf buffer),
          proxyOf (serverTransmitOf buffer), proxyOf (clientReceiveOf now),
          Int.tdiv (halfSum (proxyOf (originateOf self now buffer))
            (proxyOf (serverReceiveOf buffer)) (proxyOf (serverTransmitOf buffer))
            (proxyOf (clientReceiveOf now))) 1000) := by
  rw [ReceivedMessage_offset, clockOffsetMs_eq _ _ _ _ (proxyOf_lt _) (proxyOf_lt _)
    (proxyOf_lt _) (proxyOf_lt _) hfit]

/-- The exchange of the specification: the reply `replyB` read at 12:00:00.050000 has
t1 - t0 = 100000 and t2 - t3 = 100000, and the stored offset is 100. -/
theorem clockOffset_formula_witness :
    (ReceivedMessage NtpClient.new { tv_sec := 1559390400, tv_usec := 50000 }
        (Buffer.ofList replyB)).map
      (fun r => (r._originClient, r._receiveServer, r._transmitServer, r._receiveClient,
        GetClockOffset r.self))
      = some (120000000000, 120000100000, 120000150000, 120000050000, 100) := by
  have h := clockOffset_formula NtpClient.new { tv_sec := 1559390400, tv_usec := 50000 }
    (Buffer.ofList replyB) (by decide)
  rw [h]
  decide

/-- C2 fails on the code: for the reply `replyLate` read at 00:00:00.000000 the four
day-local values are 0, 10^10, 10^10 and 0, so `((t1 - t0) + (t2 - t3)) / 2` is exactly
10^10 and the claimed offset is 10^7; the 32-bit `int` keeps 10^10 mod 2^32 and the stored
offset is 1410065. -/
theorem clockOffset_formula_counterexample :
    (ReceivedMessage NtpClient.new { tv_sec := 1559347200, tv_usec := 0 }
        (Buffer.ofList replyLate)).map
      (fun r => (r._originClient, r._receiveServer, r._transmitServer, r._receiveClient,
        GetClockOffset r.self))
      = some (0, 10000000000, 10000000000, 0, 1410065) ∧
    ((10000000000 : Int) - 0) + ((10000000000 : Int) - 0) = 2 * 10000000000 ∧
    Int.tdiv (halfSum 0 10000000000 10000000000 0) 1000 = 10000000 := by
  refine ⟨by decide, by decide, by decide⟩

theorem proxyOf_nonneg (ts : Nat) (h : 0 ≤ (unixOf ts).tv_sec) :
    ∃ x u : Nat, (unixOf ts).tv_sec = (x : Int) ∧ (unixOf ts).tv_usec = (u : Int) ∧
      u < 1000000 ∧ proxyOf ts = dayValue x u := by
  obtain ⟨_, _, hu, hlt⟩ := unix_bounds ts
  have h1 := convert_ntp_to_date_nonneg ts h
  rw [proxyOf_spec] at h1
  simp only [Option.some.injEq, Prod.mk.injEq] at h1
  refine ⟨(unixOf ts).tv_sec.toNat, _, ?_, hu, hlt, h1.1⟩
  omega

theorem dayValue_sub (x y u v : Nat) (h : (x : Int) / 60 = (y : Int) / 60) :
    (dayValue x u : Int) - (dayValue y v : Int)
      = ((x : Int) * 1000000 + u) - ((y : Int) * 1000000 + v) := by
  unfold dayValue
  omega

theorem ReceivedMessage_stored (self : NtpClient) (now : timeval) (buffer : Buffer) :
    (ReceivedMessage self now buffer).map (fun r => GetClockOffset r.self)
      = some (clockOffsetMs (proxyOf (originateOf self now buffer))
          (proxyOf (serverReceiveOf buffer)) (proxyOf (serverTransmitOf buffer))
          (proxyOf (clientReceiveOf now))) := by
  obtain ⟨r, hr, hself, hoff, _, h0, h1, h2, h3, _, _⟩ := ReceivedMessage_some self now buffer
  rw [originateOf_eq self now buffer r hr, hr, Option.map_some', ← h0, ← h1, ← h2, ← h3,
    ← hoff, hself]
  rfl

/-- C1, as the code has it: for every exchange whose four timestamps have Unix seconds that
are not negative in the 32-bit `long` of `convert_ntp_to_unix` (times from 1970-01-01 to
2038-01-19 03:14:07 UTC) and lie in the same UTC minute, the offset that `GetClockOffset`
returns after `ReceivedMessage` is negative if the local clock is ahead by at least 1 ms
(t1 <= t0 - 1000 us and t2 <= t3 - 1000 us) and positive if it is behind by at least 1 ms
(t1 >= t0 + 1000 us and t2 >= t3 + 1000 us). -/
theorem offset_sign (self : NtpClient) (now : timeval) (buffer : Buffer)
    (hrange : 0 ≤ (unixOf (originateOf self now buffer)).tv_sec ∧
      0 ≤ (unixOf (serverReceiveOf buffer)).tv_sec ∧
      0 ≤ (unixOf (serverTransmitOf buffer)).tv_sec ∧
      0 ≤ (unixOf (clientReceiveOf now)).tv_sec)
    (hminute : minuteOf (serverReceiveOf buffer) = minuteOf (originateOf self now buffer) ∧
      minuteOf (serverTransmitOf buffer) = minuteOf (originateOf self now buffer) ∧
      minuteOf (clientReceiveOf now) = minuteOf (originateOf self now buffer)) :
    ∃ off, (ReceivedMessage self now buffer).map (fun r => GetClockOffset r.self) = some off ∧
      (microsOf (serverReceiveOf buffer) ≤ microsOf (originateOf self now buffer) - 1000 ∧
        microsOf (serverTransmitOf buffer) ≤ microsOf (clientReceiveOf now) - 1000 →
          off < 0) ∧
      (microsOf (originateOf self now buffer) + 1000 ≤ microsOf (serverReceiveOf buffer) ∧
        microsOf (clientReceiveOf now) + 1000 ≤ microsOf (serverTransmitOf buffer) →
          0 < off) := by
  refine ⟨_, ReceivedMessage_stored self now buffer, ?_⟩
  generalize originateOf self now buffer = t0 at *
  generalize serverReceiveOf buffer = t1 at *
  generalize serverTransmitOf buffer = t2 at *
  generalize clientReceiveOf now = t3 at *
  obtain ⟨r0, r1, r2, r3⟩ := hrange
  obtain ⟨m1, m2, m3⟩ := hminute
  obtain ⟨x0, u0, hx0, hu0, hl0, hp0⟩ := proxyOf_nonneg t0 r0
  obtain ⟨x1, u1, hx1, hu1, hl1, hp1⟩ := proxyOf_nonneg t1 r1
  obtain ⟨x2, u2, hx2, hu2, hl2, hp2⟩ := proxyOf_nonneg t2 r2
  obtain ⟨x3, u3, hx3, hu3, hl3, hp3⟩ := proxyOf_nonneg t3 r3
  unfold minuteOf at m1 m2 m3
  unfold microsOf
  rw [hx0, hx1] at m1
  rw [hx0, hx2] at m2
  rw [hx0, hx3] at m3
  rw [hx0, hx1, hx2, hx3, hu0, hu1, hu2, hu3]
  have d1 := dayValue_sub x1 x0 u1 u0 m1
  have d2 := dayValue_sub x2 x3 u2 u3 (by omega)
  have hs : halfSum (proxyOf t0) (proxyOf t1) (proxyOf t2) (proxyOf t3)
      = ((((x1 : Int) * 1000000 + u1) - ((x0 : Int) * 1000000 + u0))
        + (((x2 : Int) * 1000000 + u2) - ((x3 : Int) * 1000000 + u3))) / 2 := by
    unfold halfSum
    rw [hp0, hp1, hp2, hp3, d1, d2]
  have hfit : -2147483648 ≤ halfSum (proxyOf t0) (proxyOf t1) (proxyOf t2) (proxyOf t3) ∧
      halfSum (proxyOf t0) (proxyOf t1) (proxyOf t2) (proxyOf t3) < 2147483648 := by
    rw [hs]; omega
  rw [clockOffsetMs_eq _ _ _ _ (proxyOf_lt _) (proxyOf_lt _) (proxyOf_lt _) (proxyOf_lt _)
    hfit, hs]
  clear hfit hs d1 d2 hp0 hp1 hp2 hp3 hx0 hx1 hx2 hx3 hu0 hu1 hu2 hu3 r0 r1 r2 r3
  constructor
  · intro h
    exact tdiv_neg_of_le _ (by omega)
  · intro h
    exact tdiv_pos_of_ge _ (by omega)

/-- C1 fails on the code: the four timestamps of the exchange `reply2038`, read at
`now2038`, lie in one UTC minute and the local clock is ahead by a second
(t1 <= t0 - 1000 us, t2 <= t3 - 1000 us), but the stored offset is 0, not negative: the
Unix seconds are negative in the 32-bit `long`, each day-local text starts with "-3" and
`std::stoull` reads 2^64 - 3 for all four. -/
theorem offset_sign_counterexample :
    minuteOf (serverReceiveOf (Buffer.ofList reply2038))
      = minuteOf (originateOf NtpClient.new now2038 (Buffer.ofList reply2038)) ∧
    minuteOf (serverTransmitOf (Buffer.ofList reply2038))
      = minuteOf (originateOf NtpClient.new now2038 (Buffer.ofList reply2038)) ∧
    minuteOf (clientReceiveOf now2038)
      = minuteOf (originateOf NtpClient.new now2038 (Buffer.ofList reply2038)) ∧
    microsOf (serverReceiveOf (Buffer.ofList reply2038))
      ≤ microsOf (originateOf NtpClient.new now2038 (Buffer.ofList reply2038)) - 1000 ∧
    microsOf (serverTransmitOf (Buffer.ofList reply2038))
      ≤ microsOf (clientReceiveOf now2038) - 1000 ∧
    (ReceivedMessage NtpClient.new now2038 (Buffer.ofList reply2038)).map
      (fun r => (r._originClient, r._receiveServer, r._transmitServer, r._receiveClient,
        GetClockOffset r.self))
      = some (18446744073709551613, 18446744073709551613, 18446744073709551613,
          18446744073709551613, 0) := by
  refine ⟨by decide, by decide, by decide, by decide, by decide, by decide⟩

/-- The exchange `replyAhead` read at 12:00:00.520000 on 2019-06-01: the local clock is
ahead and the stored offset is negative. -/
theorem offset_sign_witness :
    microsOf (serverReceiveOf (Buffer.ofList replyAhead))
      ≤ microsOf (originateOf NtpClient.new { tv_sec := 1559390400, tv_usec := 520000 }
          (Buffer.ofList replyAhead)) - 1000 ∧
    microsOf (serverTransmitOf (Buffer.ofList replyAhead))
      ≤ microsOf (clientReceiveOf { tv_sec := 1559390400, tv_usec := 520000 }) - 1000 ∧
    ∃ off, (ReceivedMessage NtpClient.new { tv_sec := 1559390400, tv_usec := 520000 }
        (Buffer.ofList replyAhead)).map (fun r => GetClockOffset r.self) = some off ∧
      off < 0 := by
  obtain ⟨off, h1, h2, _⟩ := offset_sign NtpClient.new
    { tv_sec := 1559390400, tv_usec := 520000 } (Buffer.ofList replyAhead)
    (by decide) (by decide)
  exact ⟨by decide, by decide, off, h1, h2 ⟨by decide, by decide⟩⟩

/-! ## The request -/

/-- C6: for every local time (and every object and buffer), byte 0 of the request written by
`CreateMessage` is 0x1B = 27, which is `(0 << 6) | (3 << 3) | 3`. -/
theorem CreateMessage_header_byte (self : NtpClient) (now : timeval) (buffer : Buffer) :
    ((CreateMessage self now buffer).1.rd 0).val = 27 ∧
      (CreateMessage self now buffer).1 0 = 0x1B ∧
      (27 : Nat) = (0 <<< 6) ||| (3 <<< 3) ||| 3 := by
  refine ⟨?_, ?_, by decide⟩
  · simp [CreateMessage, Buffer.wr, Buffer.rd, intToChar, SNTPMessage.clear]
    rfl
  · simp [CreateMessage, Buffer.wr, intToChar, SNTPMessage.clear]
    rfl

/-- C7: for every local time, the request that `Connect` hands to `sendto` is the zeroed
buffer passed through `CreateMessage`; its bytes 24..31 hold the originate timestamp cached
in `m_originateTimestamp` (the NTP form of the local time) as a big-endian 64-bit integer,
byte 24 most significant, and every byte other than byte 0 and bytes 24..31 is zero. -/
theorem Connect_request_layout (self : NtpClient) (env : Transport) :
    (Connect self env).sent
        = (if env.wsaStartup = NO_ERROR ∧ env.socketValid = true ∧ env.hostFound = true
              ∧ 0 ≤ env.connectResult
            then some (CreateMessage self env.txNow Buffer.zero).1 else none) ∧
      (CreateMessage self env.txNow Buffer.zero).2.m_originateTimestamp
        = (convert_unix_to_ntp env.txNow).second * 2 ^ 32
          + (convert_unix_to_ntp env.txNow).fraction ∧
      bigEndian64 (CreateMessage self env.txNow Buffer.zero).1 24
        = (CreateMessage self env.txNow Buffer.zero).2.m_originateTimestamp ∧
      (∀ k : Fin 8, ((CreateMessage self env.txNow Buffer.zero).1.rd (24 + k.val)).val
        = (CreateMessage self env.txNow Buffer.zero).2.m_originateTimestamp
            / 256 ^ (7 - k.val) % 256) ∧
      (∀ i : Fin 48, i.val = 0 ∨ (24 ≤ i.val ∧ i.val ≤ 31)
        ∨ (CreateMessage self env.txNow Buffer.zero).1 i = 0) := by
  have hm : (CreateMessage self env.txNow Buffer.zero).2.m_originateTimestamp
      = ntpNow env.txNow := rfl
  obtain ⟨hn, hlt⟩ := ntpNow_eq env.txNow
  have hb := CreateMessage_zero_bytes self env.txNow
  have hrd : ∀ k : Nat, k < 8 →
      ((CreateMessage self env.txNow Buffer.zero).1.rd (24 + k)).val
        = ntpNow env.txNow / 256 ^ (7 - k) % 256 := by
    intro k hk
    have := hb ⟨24 + k, by omega⟩
    simp only [Buffer.rd]
    rw [dif_pos (by omega), this]
    rw [if_neg (by simp), if_pos (by simp; omega)]
    congr 3
    simp; omega
  refine ⟨Connect_sent self env, ?_, ?_, ?_, ?_⟩
  · rw [hm, hn]; norm_num
  · rw [hm]
    simp only [bigEndian64, Finset.sum_range_succ, Finset.sum_range_zero]
    have e0 := hrd 0 (by norm_num)
    have e1 := hrd 1 (by norm_num)
    have e2 := hrd 2 (by norm_num)
    have e3 := hrd 3 (by norm_num)
    have e4 := hrd 4 (by norm_num)
    have e5 := hrd 5 (by norm_num)
    have e6 := hrd 6 (by norm_num)
    have e7 := hrd 7 (by norm_num)
    norm_num at e0 e1 e2 e3 e4 e5 e6 e7 ⊢
    rw [e0, e1, e2, e3, e4, e5, e6, e7]
    clear e0 e1 e2 e3 e4 e5 e6 e7 hrd hb hm hn
    omega
  · intro k; rw [hm]; exact hrd k.val k.isLt
  · intro i
    have := hb i
    by_cases h0 : i.val = 0
    · exact Or.inl h0
    · by_cases h1 : 24 ≤ i.val ∧ i.val ≤ 31
      · exact Or.inr (Or.inl h1)
      · rw [if_neg h0, if_neg h1] at this
        exact Or.inr (Or.inr (Fin.ext this))

/-- The reply `replyA`, whose originate timestamp at offset 24 is 12:00:00 of 2019-06-01. -/
theorem GetNtpTimestamp64_bigEndian_witness :
    GetNtpTimestamp64 24 (Buffer.ofList (replyA 0x24))
      = ∑ i ∈ Finset.range 8, ((Buffer.ofList (replyA 0x24)).rd (24 + i)).val * 256 ^ (7 - i) ∧
    GetNtpTimestamp64 24 (Buffer.ofList (replyA 0x24)) = 3768379200 * 2 ^ 32 :=
  ⟨(GetNtpTimestamp64_bigEndian (Buffer.ofList (replyA 0x24)) 24 (by decide)).1, by decide⟩

/-! ## Conversions, labels and the day-local value: further lemmas -/

theorem toUInt32_of_lt (n : Nat) (h : n < 4294967296) : toUInt32 (n : Int) = n := by
  unfold toUInt32
  omega

theorem toInt32_of_lt (n : Nat) (h : n < 2147483648) : toInt32 (n : Int) = n := by
  unfold toInt32
  dsimp only
  split_ifs <;> omega

/-- Unix time of a timestamp whose seconds field lies in [2208988800, 2208988800 + 2^31). -/
theorem unixOf_in_range (ts : Nat) (h1 : 2208988800 ≤ secondsOf ts)
    (h2 : secondsOf ts < 2208988800 + 2147483648) :
    unixOf ts = { tv_sec := ((secondsOf ts - 2208988800 : Nat) : Int)
                  tv_usec := ((fractionOf ts * 1000000 / 4294967296 : Nat) : Int) } ∧
      secondsOf ts - 2208988800 < 2147483648 ∧
      fractionOf ts * 1000000 / 4294967296 < 1000000 ∧
      fractionOf ts = ts % 4294967296 := by
  unfold secondsOf at h1 h2 ⊢
  unfold fractionOf unixOf
  rw [splitTimestamp_eq] at h1 h2 ⊢
  simp only at h1 h2 ⊢
  generalize ts / 4294967296 % 4294967296 = s at h1 h2 ⊢
  have hf : ts % 4294967296 * 1000000 / 4294967296 < 1000000 := by
    have := Nat.mod_lt ts (show 0 < 4294967296 by norm_num)
    omega
  simp only [convert_ntp_to_unix]
  generalize ts % 4294967296 * 1000000 / 4294967296 = U at hf ⊢
  refine ⟨?_, by omega, hf, trivial⟩
  have e1 : toUInt32 ((s : Int) - (SECONDS_SINCE_FIRST_EPOCH : Nat))
      = s - 2208988800 := by
    unfold toUInt32 SECONDS_SINCE_FIRST_EPOCH
    omega
  rw [e1, toInt32_of_lt _ (by omega), toUInt32_of_lt U (by omega), toInt32_of_lt U (by omega)]

theorem dateFields_nonneg (x u : Nat) :
    dateFields { tv_sec := (x : Int), tv_usec := (u : Int) }
      = { hour := ((x % 86400 / 3600 : Nat) : Int)
          minute := ((x % 3600 / 60 : Nat) : Int)
          second := ((x % 60 : Nat) : Int)
          millisecond := (u : Int) } := by
  have e1 : Int.tmod (x : Int) 86400 = ((x % 86400 : Nat) : Int) := by
    rw [Int.tmod_eq_emod (by omega) (by norm_num)]; omega
  have e2 : Int.tmod (x : Int) 3600 = ((x % 3600 : Nat) : Int) := by
    rw [Int.tmod_eq_emod (by omega) (by norm_num)]; omega
  have e3 : Int.tmod (x : Int) 60 = ((x % 60 : Nat) : Int) := by
    rw [Int.tmod_eq_emod (by omega) (by norm_num)]; omega
  have f1 : Int.tdiv ((x % 86400 : Nat) : Int) 3600 = ((x % 86400 / 3600 : Nat) : Int) := by
    rw [Int.tdiv_eq_ediv (by omega) (by norm_num)]; omega
  have f2 : Int.tdiv ((x % 3600 : Nat) : Int) 60 = ((x % 3600 / 60 : Nat) : Int) := by
    rw [Int.tdiv_eq_ediv (by omega) (by norm_num)]; omega
  simp only [dateFields, e1, e2, e3, f1, f2]

/-- The value and the fields of `convert_ntp_to_date` on a timestamp in range. -/
theorem convert_ntp_to_date_in_range (ts : Nat) (h1 : 2208988800 ≤ secondsOf ts)
    (h2 : secondsOf ts < 2208988800 + 2147483648) :
    convert_ntp_to_date ts
      = some (dayValue (secondsOf ts - 2208988800) (fractionOf ts * 1000000 / 4294967296),
          { hour := (((secondsOf ts - 2208988800) % 86400 / 3600 : Nat) : Int)
            minute := (((secondsOf ts - 2208988800) % 3600 / 60 : Nat) : Int)
            second := (((secondsOf ts - 2208988800) % 60 : Nat) : Int)
            millisecond := ((fractionOf ts * 1000000 / 4294967296 : Nat) : Int) }) := by
  obtain ⟨hu, _, _, _⟩ := unixOf_in_range ts h1 h2
  generalize secondsOf ts - 2208988800 = x0 at hu ⊢
  generalize fractionOf ts * 1000000 / 4294967296 = U0 at hu ⊢
  have hnn : 0 ≤ (unixOf ts).tv_sec := by rw [hu]; exact Int.ofNat_nonneg x0
  obtain ⟨x, u, ex, eu, _, hp⟩ := proxyOf_nonneg ts hnn
  rw [hu] at ex eu
  have hx : x0 = x := Int.ofNat.inj ex
  have hu0 : U0 = u := Int.ofNat.inj eu
  subst hx hu0
  rw [proxyOf_spec, hp, hu, dateFields_nonneg]

theorem dayValue_mono (x y u v : Nat) (hday : x / 86400 = y / 86400) (hxy : x ≤ y)
    (huv : x = y → u ≤ v) (hu : u < 1000000) :
    dayValue x u ≤ dayValue y v := by
  unfold dayValue
  omega

set_option maxRecDepth 100000 in
theorem version_mode_of_byte (b : Byte) :
    toUChar (andMask (charToInt b) 0x38 >>> 3) = b.val / 8 % 8 ∧
      toUChar (andMask (charToInt b) 0x7) = b.val % 8 := by
  revert b
  decide

set_option maxRecDepth 100000 in
theorem stratum_of_byte (b : Byte) :
    toUChar (charToInt b) = b.val ∧
      GetStratumString b.val
        = (if b.val = 0 then "Unspecified" else if b.val = 1 then "PrimaryReference"
            else if 2 ≤ b.val ∧ b.val ≤ 15 then "SecondaryReference" else "Reserved") := by
  revert b
  decide

set_option maxRecDepth 100000 in
theorem refId_of_byte (b : Byte) :
    toUInt32 (charToInt b) = if b.val < 128 then b.val else 4294967040 + b.val := by
  revert b
  decide

theorem GetModeString_eq (m : Nat) :
    GetModeString m
      = (if m = 1 then "SymmetricActive" else if m = 2 then "SymmetricPassive"
          else if m = 3 then "Client" else if m = 4 then "Server"
          else if m = 5 then "Broadcast" else "Reserved") := by
  rcases m with _ | _ | _ | _ | _ | _ | m
  · rfl
  · rfl
  · rfl
  · rfl
  · rfl
  · rfl
  · have h1 : GetModeString (m + 1 + 1 + 1 + 1 + 1 + 1) = "Reserved" := by
      unfold GetModeString
      rfl
    rw [h1, if_neg (by omega), if_neg (by omega), if_neg (by omega), if_neg (by omega),
      if_neg (by omega)]

theorem decodeFields_refId (buffer : Buffer) :
    (decodeFields buffer)._referenceIdentifier
      = [toUInt32 (charToInt (buffer.rd 12)), toUInt32 (charToInt (buffer.rd 13)),
         toUInt32 (charToInt (buffer.rd 14)), toUInt32 (charToInt (buffer.rd 15))] := by
  simp [decodeFields, GetReferenceId, List.range, List.range.loop,
    NTP_MSG_OFFSET_REFERENCE_IDENTIFIER]

/-! ## Round trip, decoded fields and the order of day-local values -/

theorem clockOffsetMs_same (p : Nat) : clockOffsetMs p p p p = 0 := by
  unfold clockOffsetMs
  rw [sub_self]
  rfl

theorem roundTripDelayMs_same (p : Nat) : roundTripDelayMs p p p p = 0 := by
  unfold roundTripDelayMs
  rw [sub_self]
  rfl

theorem proxyOf_in_range (ts : Nat) (h1 : 2208988800 ≤ secondsOf ts)
    (h2 : secondsOf ts < 2208988800 + 2147483648) :
    proxyOf ts = dayValue (secondsOf ts - 2208988800) (fractionOf ts * 1000000 / 4294967296) := by
  have h := convert_ntp_to_date_in_range ts h1 h2
  rw [proxyOf_spec] at h
  generalize dayValue (secondsOf ts - 2208988800) (fractionOf ts * 1000000 / 4294967296) = d
    at h ⊢
  generalize proxyOf ts = p at h ⊢
  simp only [Option.some.injEq, Prod.mk.injEq] at h
  exact h.1

theorem fields_le (a b : Nat) (hab : a ≤ b) (hb : b < 18446744073709551616) :
    secondsOf a ≤ secondsOf b ∧
      (secondsOf a = secondsOf b → fractionOf a * 1000000 / 4294967296
        ≤ fractionOf b * 1000000 / 4294967296) := by
  unfold secondsOf fractionOf
  rw [splitTimestamp_eq, splitTimestamp_eq]
  simp only
  have ha : a / 4294967296 < 4294967296 := by omega
  have hb2 : b / 4294967296 < 4294967296 := by omega
  rw [Nat.mod_eq_of_lt ha, Nat.mod_eq_of_lt hb2]
  have hd : a / 4294967296 ≤ b / 4294967296 := Nat.div_le_div_right hab
  refine ⟨hd, fun he => ?_⟩
  have hm : a % 4294967296 ≤ b % 4294967296 := by omega
  exact Nat.div_le_div_right (Nat.mul_le_mul_right _ hm)

/-- What the source computes for the reference identifier, for every reply: a byte below
0x80 gives its value, a byte from 0x80 on gives 2^32 - 256 plus its value. -/
theorem referenceIdentifier_of_bytes (buffer : Buffer) :
    (decodeFields buffer)._referenceIdentifier
      = [if (buffer 12).val < 128 then (buffer 12).val else 4294967040 + (buffer 12).val,
         if (buffer 13).val < 128 then (buffer 13).val else 4294967040 + (buffer 13).val,
         if (buffer 14).val < 128 then (buffer 14).val else 4294967040 + (buffer 14).val,
         if (buffer 15).val < 128 then (buffer 15).val else 4294967040 + (buffer 15).val] := by
  rw [decodeFields_refId, refId_of_byte, refId_of_byte, refId_of_byte, refId_of_byte]
  rfl

theorem convert_unix_to_ntp_fraction (u : timeval) :
    (convert_unix_to_ntp u).fraction = toUInt32 (fractionOperand u) := rfl

/-- The value to convert fits `uint32_t` for every reading of `gettimeofday`, whose
microseconds are `wMilliseconds * 1000` with `wMilliseconds` in 0..999. -/
theorem fractionOperand_of_milliseconds (sec : Int) (wMilliseconds : Nat)
    (h : wMilliseconds ≤ 999) :
    fractionOperand { tv_sec := sec, tv_usec := ((wMilliseconds * 1000 : Nat) : Int) }
      < 4294967296 := by
  unfold fractionOperand
  simp only
  rw [Int.tdiv_eq_ediv (by omega) (by norm_num)]
  omega

/-- At 999999 microseconds the value to convert is exactly 2^32, which `uint32_t` cannot
hold, and the language leaves the result of the conversion at line 135 undefined.
`convert_ntp_to_unix` gives back 999999 microseconds from the largest 32-bit fraction and 0
microseconds from the fraction 0. -/
theorem fractionOperand_boundary :
    fractionOperand { tv_sec := 1559390400, tv_usec := 999999 } = 4294967296 ∧
    (convert_ntp_to_unix { second := 3768379200, fraction := 4294967295 }).tv_usec = 999999 ∧
    (convert_ntp_to_unix { second := 3768379200, fraction := 0 }).tv_usec = 0 := by
  refine ⟨by decide, by decide, by decide⟩

/-- C12: for every 64-bit NTP timestamp whose seconds field s satisfies
2208988800 <= s < 2208988800 + 2^31, with x = s - 2208988800 and
U = floor(fraction * 10^6 / 2^32), `convert_ntp_to_date` returns
(x mod 86400) / 3600 * 10^10 + (x mod 3600) / 60 * 10^8 + (x mod 60) * 10^6 + U and stores
hour (x mod 86400) / 3600, minute (x mod 3600) / 60, second x mod 60 and microsecond U in the
date structure; the four fields are below 24, 60, 60 and 10^6, so the value has the decimal
digits HH MM SS MMMMMM. -/
theorem convert_ntp_to_date_day_value (ts : Nat) (h1 : 2208988800 ≤ secondsOf ts)
    (h2 : secondsOf ts < 2208988800 + 2 ^ 31) :
    convert_ntp_to_date ts
      = some ((secondsOf ts - 2208988800) % 86400 / 3600 * 10 ^ 10
            + (secondsOf ts - 2208988800) % 3600 / 60 * 10 ^ 8
            + (secondsOf ts - 2208988800) % 60 * 10 ^ 6
            + fractionOf ts * 10 ^ 6 / 2 ^ 32,
          { hour := (((secondsOf ts - 2208988800) % 86400 / 3600 : Nat) : Int)
            minute := (((secondsOf ts - 2208988800) % 3600 / 60 : Nat) : Int)
            second := (((secondsOf ts - 2208988800) % 60 : Nat) : Int)
            millisecond := ((fractionOf ts * 10 ^ 6 / 2 ^ 32 : Nat) : Int) }) ∧
      (secondsOf ts - 2208988800) % 86400 / 3600 < 24 ∧
      (secondsOf ts - 2208988800) % 3600 / 60 < 60 ∧
      (secondsOf ts - 2208988800) % 60 < 60 ∧
      fractionOf ts * 10 ^ 6 / 2 ^ 32 < 10 ^ 6 ∧
      secondsOf ts = ts / 2 ^ 32 % 2 ^ 32 ∧ fractionOf ts = ts % 2 ^ 32 := by
  have e10 : (10 : Nat) ^ 10 = 10000000000 := by norm_num
  have e8 : (10 : Nat) ^ 8 = 100000000 := by norm_num
  have e6 : (10 : Nat) ^ 6 = 1000000 := by norm_num
  have e32 : (2 : Nat) ^ 32 = 4294967296 := by norm_num
  have e31 : (2 : Nat) ^ 31 = 2147483648 := by norm_num
  rw [e31] at h2
  rw [e10, e8, e6, e32]
  obtain ⟨_, _, hU, hfr⟩ := unixOf_in_range ts h1 h2
  have hsec : secondsOf ts = ts / 4294967296 % 4294967296 := by
    unfold secondsOf
    rw [splitTimestamp_eq]
  refine ⟨?_, ?_, ?_, ?_, hU, hsec, hfr⟩
  · rw [convert_ntp_to_date_in_range ts h1 h2]
    unfold dayValue
    rfl
  · generalize secondsOf ts - 2208988800 = x
    omega
  · generalize secondsOf ts - 2208988800 = x
    omega
  · generalize secondsOf ts - 2208988800 = x
    omega

/-- The timestamp 12:00:00.050000 of 2019-06-01 (fraction 214752659). -/
theorem convert_ntp_to_date_day_value_witness :
    convert_ntp_to_date (ntpStamp noon 214752659)
      = some (120000050000, { hour := 12, minute := 0, second := 0, millisecond := 50000 }) :=
  (convert_ntp_to_date_day_value (ntpStamp noon 214752659) (by decide) (by decide)).1.trans
    (by decide)

/-- C13 (the code departs from the claim): the reply `replyRefId` carries the reference
identifier 192.168.1.10 in bytes 12..15; `ReceivedMessage` decodes the elements 4294967232,
4294967208, 1 and 10: the two bytes from 0x80 on are sign-extended. -/
theorem referenceIdentifier_of_address_reply :
    ((List.range 4).map fun i => ((Buffer.ofList replyRefId).rd (12 + i)).val)
      = [192, 168, 1, 10] ∧
    (ReceivedMessage NtpClient.new { tv_sec := 1559390400, tv_usec := 50000 }
        (Buffer.ofList replyRefId)).map (fun r => r._sntpMsg._referenceIdentifier)
      = some [4294967232, 4294967208, 1, 10] := by
  refine ⟨by decide, by decide⟩

/-- C14: for every value of byte 0 of a received reply, the versionNumber that
`ReceivedMessage` decodes is bits [5:3] of the byte, (byte0 / 8) mod 8, and the mode is bits
[2:0], byte0 mod 8. -/
theorem ReceivedMessage_version_mode (self : NtpClient) (now : timeval) (buffer : Buffer) :
    ∃ r, ReceivedMessage self now buffer = some r ∧
      r._sntpMsg._versionNumber = (buffer 0).val / 8 % 8 ∧
      r._sntpMsg._mode = (buffer 0).val % 8 := by
  obtain ⟨r, hr, _, _, _, _, _, _, _, _, hm⟩ := ReceivedMessage_some self now buffer
  refine ⟨r, hr, ?_, ?_⟩
  · rw [hm]
    exact (version_mode_of_byte (buffer 0)).1
  · rw [hm]
    exact (version_mode_of_byte (buffer 0)).2

/-- C15: for every reply and local receive time such that the four timestamps t0, t1, t2, t3
used by `ReceivedMessage` are all equal, the stored clock offset is 0 and the computed
round-trip delay is 0. -/
theorem zero_exchange (self : NtpClient) (now : timeval) (buffer : Buffer)
    (h : serverReceiveOf buffer = originateOf self now buffer ∧
      serverTransmitOf buffer = originateOf self now buffer ∧
      clientReceiveOf now = originateOf self now buffer) :
    ∃ r, ReceivedMessage self now buffer = some r ∧
      GetClockOffset r.self = 0 ∧ r._clockOffset = 0 ∧ r._roundTripDelay = 0 := by
  obtain ⟨r, hr, hself, hoff, hrtd, h0, h1, h2, h3, _, _⟩ := ReceivedMessage_some self now buffer
  rw [originateOf_eq self now buffer r hr] at h
  obtain ⟨e1, e2, e3⟩ := h
  rw [e1, ← h0] at h1
  rw [e2, ← h0] at h2
  rw [e3, ← h0] at h3
  rw [h1, h2, h3, clockOffsetMs_same] at hoff
  rw [h1, h2, h3, roundTripDelayMs_same] at hrtd
  refine ⟨r, hr, ?_, hoff, hrtd⟩
  rw [hself, hoff]
  rfl

/-- The reply `replySame` read at 12:00:00.050 of 2019-06-01, the instant of its three
timestamps. -/
theorem zero_exchange_witness :
    clientReceiveOf { tv_sec := 1559390400, tv_usec := 50000 } = ntpStamp noon 214752659 ∧
    ∃ r, ReceivedMessage NtpClient.new { tv_sec := 1559390400, tv_usec := 50000 }
        (Buffer.ofList replySame) = some r ∧
      GetClockOffset r.self = 0 ∧ r._clockOffset = 0 ∧ r._roundTripDelay = 0 :=
  ⟨by decide, zero_exchange NtpClient.new { tv_sec := 1559390400, tv_usec := 50000 }
    (Buffer.ofList replySame) (by decide)⟩

/-- C16: for every value b of byte 1 of a received reply, the stratum that
`ReceivedMessage` decodes is b, and `GetStratumString` of it is "Unspecified" for b = 0,
"PrimaryReference" for b = 1, "SecondaryReference" for 2 <= b <= 15 and "Reserved" for
16 <= b <= 255. -/
theorem ReceivedMessage_stratum_label (self : NtpClient) (now : timeval) (buffer : Buffer) :
    ∃ r, ReceivedMessage self now buffer = some r ∧
      r._sntpMsg._stratum = (buffer 1).val ∧
      GetStratumString r._sntpMsg._stratum
        = (if (buffer 1).val = 0 then "Unspecified"
            else if (buffer 1).val = 1 then "PrimaryReference"
            else if 2 ≤ (buffer 1).val ∧ (buffer 1).val ≤ 15 then "SecondaryReference"
            else "Reserved") := by
  obtain ⟨r, hr, _, _, _, _, _, _, _, _, hm⟩ := ReceivedMessage_some self now buffer
  have hs : r._sntpMsg._stratum = (buffer 1).val := by
    rw [hm]
    exact (stratum_of_byte (buffer 1)).1
  refine ⟨r, hr, hs, ?_⟩
  rw [hs]
  exact (stratum_of_byte (buffer 1)).2

/-- C17: for every value m of the mode, `GetModeString` is "SymmetricActive",
"SymmetricPassive", "Client", "Server", "Broadcast" for m = 1, 2, 3, 4, 5 and "Reserved" for
every other m, 0 and 6..255 included. -/
theorem GetModeString_label (m : Nat) :
    GetModeString m
        = (if m = 1 then "SymmetricActive" else if m = 2 then "SymmetricPassive"
            else if m = 3 then "Client" else if m = 4 then "Server"
            else if m = 5 then "Broadcast" else "Reserved") :=
  GetModeString_eq m

/-- C18: for every two 64-bit NTP timestamps a <= b whose seconds fields lie in
[2208988800, 2208988800 + 2^31) and fall in the same UTC day, `convert_ntp_to_date` returns
for both, and the day-local value it returns for a is at most the one it returns for b. -/
theorem day_value_monotone (a b : Nat) (hab : a ≤ b) (hb : b < 2 ^ 64)
    (ha1 : 2208988800 ≤ secondsOf a) (ha2 : secondsOf a < 2208988800 + 2 ^ 31)
    (hb1 : 2208988800 ≤ secondsOf b) (hb2 : secondsOf b < 2208988800 + 2 ^ 31)
    (hday : (secondsOf a - 2208988800) / 86400 = (secondsOf b - 2208988800) / 86400) :
    ∃ pa da pb db, convert_ntp_to_date a = some (pa, da) ∧
      convert_ntp_to_date b = some (pb, db) ∧ pa ≤ pb := by
  have e31 : (2 : Nat) ^ 31 = 2147483648 := by norm_num
  have e64 : (2 : Nat) ^ 64 = 18446744073709551616 := by norm_num
  rw [e31] at ha2 hb2
  rw [e64] at hb
  refine ⟨proxyOf a, _, proxyOf b, _, proxyOf_spec a, proxyOf_spec b, ?_⟩
  obtain ⟨hs, hf⟩ := fields_le a b hab hb
  obtain ⟨_, _, hUa, _⟩ := unixOf_in_range a ha1 ha2
  rw [proxyOf_in_range a ha1 ha2, proxyOf_in_range b hb1 hb2]
  apply dayValue_mono _ _ _ _ hday (by omega) _ hUa
  intro hx
  exact hf (by omega)

/-- Noon and 13:00 of 2019-06-01, in the same UTC day, with a below b. -/
theorem day_value_monotone_witness :
    ntpStamp noon 0 ≤ ntpStamp (noon + 3600) 0 ∧
    ∃ pa da pb db, convert_ntp_to_date (ntpStamp noon 0) = some (pa, da) ∧
      convert_ntp_to_date (ntpStamp (noon + 3600) 0) = some (pb, db) ∧ pa ≤ pb :=
  ⟨by decide, day_value_monotone (ntpStamp noon 0) (ntpStamp (noon + 3600) 0) (by decide)
    (by decide) (by decide) (by decide) (by decide) (by decide) (by decide)⟩

/-- C19: there is an exchange around midnight UTC whose four timestamps lie within two
seconds (t0 at 23:59:59.000000, t1 = t2 = t3 at 00:00:01.000000 of the next day, true offset
+1000 ms) for which the offset stored by `ReceivedMessage` is -2014883 ms, of magnitude above
1,000,000 ms. -/
theorem midnight_rollover :
    (ReceivedMessage NtpClient.new { tv_sec := 1559347201, tv_usec := 0 }
        (Buffer.ofList replyMidnight)).map
      (fun r => (r._originClient, r._receiveServer, r._transmitServer, r._receiveClient,
        GetClockOffset r.self, decide (1000000 < (GetClockOffset r.self).natAbs)))
      = some (235959000000, 1000000, 1000000, 1000000, -2014883, true) ∧
    microsOf (clientReceiveOf { tv_sec := 1559347201, tv_usec := 0 })
      - microsOf (originateOf NtpClient.new { tv_sec := 1559347201, tv_usec := 0 }
          (Buffer.ofList replyMidnight)) = 2000000 ∧
    microsOf (serverReceiveOf (Buffer.ofList replyMidnight))
      = microsOf (clientReceiveOf { tv_sec := 1559347201, tv_usec := 0 }) ∧
    microsOf (serverTransmitOf (Buffer.ofList replyMidnight))
      = microsOf (clientReceiveOf { tv_sec := 1559347201, tv_usec := 0 }) ∧
    ((microsOf (serverReceiveOf (Buffer.ofList replyMidnight))
        - microsOf (originateOf NtpClient.new { tv_sec := 1559347201, tv_usec := 0 }
          (Buffer.ofList replyMidnight)))
      + (microsOf (serverTransmitOf (Buffer.ofList replyMidnight))
        - microsOf (clientReceiveOf { tv_sec := 1559347201, tv_usec := 0 }))) / 2
      = 1000 * 1000 := by
  refine ⟨by decide, by decide, by decide, by decide, by decide⟩

/-- C20: for every two 64-bit NTP timestamps a <= b with seconds fields in
[2208988800, 2208988800 + 2^31) that fall in the same UTC minute, `convert_ntp_to_date`
returns for both, and the value for b minus the value for a is
(sec_b - sec_a) * 10^6 + (usec_b - usec_a), with sec and usec the Unix seconds and
microseconds that `convert_ntp_to_unix` yields for each. -/
theorem day_value_difference (a b : Nat) (hab : a ≤ b) (hb : b < 2 ^ 64)
    (ha1 : 2208988800 ≤ secondsOf a) (ha2 : secondsOf a < 2208988800 + 2 ^ 31)
    (hb1 : 2208988800 ≤ secondsOf b) (hb2 : secondsOf b < 2208988800 + 2 ^ 31)
    (hmin : (secondsOf a - 2208988800) / 60 = (secondsOf b - 2208988800) / 60) :
    ∃ pa da pb db, convert_ntp_to_date a = some (pa, da) ∧
      convert_ntp_to_date b = some (pb, db) ∧ pa ≤ pb ∧
      ((pb - pa : Nat) : Int)
        = ((convert_ntp_to_unix (splitTimestamp b)).tv_sec
            - (convert_ntp_to_unix (splitTimestamp a)).tv_sec) * 10 ^ 6
          + ((convert_ntp_to_unix (splitTimestamp b)).tv_usec
            - (convert_ntp_to_unix (splitTimestamp a)).tv_usec) := by
  have e31 : (2 : Nat) ^ 31 = 2147483648 := by norm_num
  have e64 : (2 : Nat) ^ 64 = 18446744073709551616 := by norm_num
  have e6 : (10 : Int) ^ 6 = 1000000 := by norm_num
  rw [e31] at ha2 hb2
  rw [e64] at hb
  rw [e6]
  refine ⟨proxyOf a, _, proxyOf b, _, proxyOf_spec a, proxyOf_spec b, ?_⟩
  obtain ⟨hs, hf⟩ := fields_le a b hab hb
  obtain ⟨hua, _, hUa, _⟩ := unixOf_in_range a ha1 ha2
  obtain ⟨hub, _, hUb, _⟩ := unixOf_in_range b hb1 hb2
  unfold unixOf at hua hub
  rw [proxyOf_in_range a ha1 ha2, proxyOf_in_range b hb1 hb2, hua, hub]
  have hxy : secondsOf a - 2208988800 ≤ secondsOf b - 2208988800 := by omega
  have hf2 : secondsOf a - 2208988800 = secondsOf b - 2208988800 →
      fractionOf a * 1000000 / 4294967296 ≤ fractionOf b * 1000000 / 4294967296 :=
    fun hx => hf (by omega)
  clear hf hs hua hub ha1 ha2 hb1 hb2
  generalize secondsOf a - 2208988800 = x at hmin hf2 hxy ⊢
  generalize secondsOf b - 2208988800 = y at hmin hf2 hxy ⊢
  generalize fractionOf a * 1000000 / 4294967296 = u at hf2 hUa ⊢
  generalize fractionOf b * 1000000 / 4294967296 = v at hf2 hUb ⊢
  have hmono := dayValue_mono x y u v (by omega) hxy hf2 hUa
  have hsub := dayValue_sub y x v u (by omega)
  generalize dayValue x u = p at hmono hsub ⊢
  generalize dayValue y v = q at hmono hsub ⊢
  refine ⟨hmono, ?_⟩
  simp only
  omega

/-- Noon and seven and a half seconds past noon of 2019-06-01, in the same UTC minute. -/
theorem day_value_difference_witness :
    ntpStamp noon 0 ≤ ntpStamp (noon + 7) 2147483648 ∧
    ∃ pa da pb db, convert_ntp_to_date (ntpStamp noon 0) = some (pa, da) ∧
      convert_ntp_to_date (ntpStamp (noon + 7) 2147483648) = some (pb, db) ∧ pa ≤ pb ∧
      ((pb - pa : Nat) : Int)
        = ((convert_ntp_to_unix (splitTimestamp (ntpStamp (noon + 7) 2147483648))).tv_sec
            - (convert_ntp_to_unix (splitTimestamp (ntpStamp noon 0))).tv_sec) * 10 ^ 6
          + ((convert_ntp_to_unix (splitTimestamp (ntpStamp (noon + 7) 2147483648))).tv_usec
            - (convert_ntp_to_unix (splitTimestamp (ntpStamp noon 0))).tv_usec) :=
  ⟨by decide, day_value_difference (ntpStamp noon 0) (ntpStamp (noon + 7) 2147483648)
    (by decide) (by decide) (by decide) (by decide) (by decide) (by decide) (by decide)⟩

/-! ## The minute boundary and the request read back -/

theorem GetNtpField32_eq (offset : Nat) (buffer : Buffer) :
    GetNtpField32 offset buffer = bigEndian32 buffer offset := by
  simp [GetNtpField32, bigEndian32, List.range, List.range.loop, List.replicate,
    leBytesToNat, Finset.sum_range_succ]
  ring

/-- The fields that lines 214-233 of `ReceivedMessage` read from a buffer whose byte 0 is
0x1B, whose bytes 24..31 hold `n` in network byte order and whose other bytes are zero. -/
theorem decodeFields_of_request (B : Buffer) (n : Nat) (hn : n < 18446744073709551616)
    (hB : ∀ i : Fin 48, (B i).val =
      if i.val = 0 then 27
      else if 24 ≤ i.val ∧ i.val ≤ 31 then n / 256 ^ (31 - i.val) % 256
      else 0) :
    decodeFields B
      = { SNTPMessage.clear with
          _leapIndicator := 0, _versionNumber := 3, _mode := 3, _originateTimestamp := n } := by
  have hz : ∀ k : Nat, k < 48 → k ≠ 0 → ¬ (24 ≤ k ∧ k ≤ 31) → B.rd k = 0 := by
    intro k hk h0 h1
    simp only [Buffer.rd]
    rw [dif_pos hk]
    apply Fin.ext
    rw [hB ⟨k, hk⟩, if_neg h0, if_neg h1]
    rfl
  have h0 : B.rd 0 = 27 := by
    simp only [Buffer.rd]
    rw [dif_pos (by norm_num)]
    apply Fin.ext
    rw [hB ⟨0, by norm_num⟩, if_pos rfl]
    rfl
  have hrd : ∀ k : Nat, k < 8 → (B.rd (24 + k)).val = n / 256 ^ (7 - k) % 256 := by
    intro k hk
    have := hB ⟨24 + k, by omega⟩
    simp only [Buffer.rd]
    rw [dif_pos (by omega), this]
    rw [if_neg (by simp), if_pos (by simp; omega)]
    congr 3
    simp; omega
  have horig : GetNtpTimestamp64 24 B = n := by
    rw [GetNtpTimestamp64_eq]
    simp only [bigEndian64, Finset.sum_range_succ, Finset.sum_range_zero]
    have e0 := hrd 0 (by norm_num)
    have e1 := hrd 1 (by norm_num)
    have e2 := hrd 2 (by norm_num)
    have e3 := hrd 3 (by norm_num)
    have e4 := hrd 4 (by norm_num)
    have e5 := hrd 5 (by norm_num)
    have e6 := hrd 6 (by norm_num)
    have e7 := hrd 7 (by norm_num)
    norm_num at e0 e1 e2 e3 e4 e5 e6 e7 ⊢
    rw [e0, e1, e2, e3, e4, e5, e6, e7]
    clear e0 e1 e2 e3 e4 e5 e6 e7 hrd hB hz h0
    omega
  have h64 : ∀ o : Nat, o = 16 ∨ o = 32 ∨ o = 40 → GetNtpTimestamp64 o B = 0 := by
    intro o ho
    rw [GetNtpTimestamp64_eq]
    simp only [bigEndian64, Finset.sum_range_succ, Finset.sum_range_zero]
    rcases ho with rfl | rfl | rfl <;>
      simp [hz]
  have h32 : ∀ o : Nat, o = 4 ∨ o = 8 → GetNtpField32 o B = 0 := by
    intro o ho
    rw [GetNtpField32_eq]
    simp only [bigEndian32, Finset.sum_range_succ, Finset.sum_range_zero]
    rcases ho with rfl | rfl <;>
      simp [hz]
  have href := decodeFields_refId B
  rw [hz 12 (by norm_num) (by norm_num) (by norm_num),
    hz 13 (by norm_num) (by norm_num) (by norm_num),
    hz 14 (by norm_num) (by norm_num) (by norm_num),
    hz 15 (by norm_num) (by norm_num) (by norm_num)] at href
  have h1 := hz 1 (by norm_num) (by norm_num) (by norm_num)
  have h2 := hz 2 (by norm_num) (by norm_num) (by norm_num)
  have h3 := hz 3 (by norm_num) (by norm_num) (by norm_num)
  have href2 : List.map toUInt32 (GetReferenceId NTP_MSG_OFFSET_REFERENCE_IDENTIFIER B)
      = [0, 0, 0, 0] := href.trans (by decide)
  have hrd4 : GetNtpField32 NTP_MSG_OFFSET_ROOT_DELAY B = 0 := h32 4 (Or.inl rfl)
  have hrd8 : GetNtpField32 NTP_MSG_OFFSET_ROOT_DISPERSION B = 0 := h32 8 (Or.inr rfl)
  have hr16 : GetNtpTimestamp64 NTP_MSG_OFFSET_REFERENCE_TIMESTAMP B = 0 :=
    h64 16 (Or.inl rfl)
  have hr24 : GetNtpTimestamp64 NTP_MSG_OFFSET_ORIGINATE_TIMESTAMP B = n := horig
  have hr32 : GetNtpTimestamp64 NTP_MSG_OFFSET_RECEIVE_TIMESTAMP B = 0 :=
    h64 32 (Or.inr (Or.inl rfl))
  have hr40 : GetNtpTimestamp64 NTP_MSG_OFFSET_TRANSMIT_TIMESTAMP B = 0 :=
    h64 40 (Or.inr (Or.inr rfl))
  simp only [decodeFields]
  rw [href2, hrd4, hrd8, hr16, hr24, hr32, hr40, h0, h1, h2, h3]
  rfl

/-- C21: there is an exchange inside one UTC day whose four timestamps lie within one
second but straddle a minute boundary (t0 at 12:00:59.500000, t1 = t2 = t3 at
12:01:00.000000, true offset 250 ms) for which the offset stored by `ReceivedMessage` is
20250 ms, which differs from the true offset by 20000 ms, more than 1000 ms. -/
theorem minute_boundary :
    (ReceivedMessage NtpClient.new { tv_sec := 1559390460, tv_usec := 0 }
        (Buffer.ofList replyMinute)).map
      (fun r => (r._originClient, r._receiveServer, r._transmitServer, r._receiveClient,
        GetClockOffset r.self, decide (1000 < (GetClockOffset r.self - 250).natAbs)))
      = some (120059500000, 120100000000, 120100000000, 120100000000, 20250, true) ∧
    microsOf (clientReceiveOf { tv_sec := 1559390460, tv_usec := 0 })
      - microsOf (originateOf NtpClient.new { tv_sec := 1559390460, tv_usec := 0 }
          (Buffer.ofList replyMinute)) = 500000 ∧
    microsOf (serverReceiveOf (Buffer.ofList replyMinute))
      = microsOf (clientReceiveOf { tv_sec := 1559390460, tv_usec := 0 }) ∧
    microsOf (serverTransmitOf (Buffer.ofList replyMinute))
      = microsOf (clientReceiveOf { tv_sec := 1559390460, tv_usec := 0 }) ∧
    ((microsOf (serverReceiveOf (Buffer.ofList replyMinute))
        - microsOf (originateOf NtpClient.new { tv_sec := 1559390460, tv_usec := 0 }
          (Buffer.ofList replyMinute)))
      + (microsOf (serverTransmitOf (Buffer.ofList replyMinute))
        - microsOf (clientReceiveOf { tv_sec := 1559390460, tv_usec := 0 }))) / 2
      = 250 * 1000 ∧
    (unixOf (originateOf NtpClient.new { tv_sec := 1559390460, tv_usec := 0 }
        (Buffer.ofList replyMinute))).tv_sec / 86400
      = (unixOf (clientReceiveOf { tv_sec := 1559390460, tv_usec := 0 })).tv_sec / 86400 ∧
    minuteOf (originateOf NtpClient.new { tv_sec := 1559390460, tv_usec := 0 }
        (Buffer.ofList replyMinute)) + 1
      = minuteOf (clientReceiveOf { tv_sec := 1559390460, tv_usec := 0 }) := by
  refine ⟨by decide, by decide, by decide, by decide, by decide, by decide, by decide⟩

/-- C22: for every local time, the fields that lines 214-233 of `ReceivedMessage` read from
the request that `CreateMessage` writes into a zeroed 48-byte buffer are leapIndicator 0,
versionNumber 3, mode 3, an originateTimestamp equal to the `m_originateTimestamp` cached by
`CreateMessage`, and zero for every other field; `ReceivedMessage` run on that request, at
any later local time, returns with these fields in `_sntpMsg`. -/
theorem CreateMessage_decode_round_trip (self : NtpClient) (now : timeval) :
    decodeFields (CreateMessage self now Buffer.zero).1
        = { _leapIndicator := 0, _versionNumber := 3, _mode := 3, _stratum := 0,
            _pollInterval := 0, _precision := 0, _rootDelay := 0, _rootDispersion := 0,
            _referenceIdentifier := [0, 0, 0, 0], _referenceTimestamp := 0,
            _originateTimestamp := (CreateMessage self now Buffer.zero).2.m_originateTimestamp,
            _receiveTimestamp := 0, _transmitTimestamp := 0 } ∧
      ∀ later : timeval, ∃ r,
        ReceivedMessage (CreateMessage self now Buffer.zero).2 later
            (CreateMessage self now Buffer.zero).1 = some r ∧
          r._sntpMsg = decodeFields (CreateMessage self now Buffer.zero).1 := by
  have hm : (CreateMessage self now Buffer.zero).2.m_originateTimestamp = ntpNow now := rfl
  have hd := decodeFields_of_request (CreateMessage self now Buffer.zero).1 (ntpNow now)
    (ntpNow_eq now).2 (CreateMessage_zero_bytes self now)
  refine ⟨?_, fun later => ?_⟩
  · rw [hm, hd]
    rfl
  · obtain ⟨r, hr, _, _, _, _, _, _, _, _, hs⟩ :=
      ReceivedMessage_some (CreateMessage self now Buffer.zero).2 later
        (CreateMessage self now Buffer.zero).1
    exact ⟨r, hr, hs⟩

end Sntp
